import Mathlib

/-!
Shallow embedding of the request-admission and scanning core of the
mcp-eu-ai-act server (src/index.ts) together with theorems checking the
frozen claims about it.

Conventions of the embedding:
* JS objects used as string-keyed maps become association lists
  (List (String x v)) with JS Map/object insertion-order semantics.
* Wall-clock time is a rational number of milliseconds (Date.now), and the
  rate limiter converts to seconds by exact division by 1000, as the code
  divides by 1000 (JS numbers are idealised as exact rationals).
* Filesystem reads and persistence (fs.writeFileSync, JSON files) are
  input/output effects: the in-memory state transition that the code performs
  is embedded, and the write-through persist step, which does not affect the
  returned decision or the in-memory table, is not modelled.
* Filesystem content is an explicit value: a tree of entries for the walker,
  and a lookup structure (existence predicate and read function) for the
  compliance checks.
-/

-- ===== association-list helpers (JS Map / plain-object semantics) =====

/-- Lookup in an association list, first binding wins (JS Map.get). -/
def lookupA {v : Type} : List (String × v) → String → Option v
  | [], _ => none
  | (k, x) :: rest, key => if k = key then some x else lookupA rest key

/-- Update an existing binding in place, or append a new one at the end
(JS Map.set / object property assignment keeps insertion order). -/
def setA {v : Type} : List (String × v) → String → v → List (String × v)
  | [], key, x => [(key, x)]
  | (k, y) :: rest, key, x =>
      if k = key then (k, x) :: rest else (k, y) :: setA rest key x

/-- Append one element to the list bound to a key, creating the binding with a
singleton list when absent; this is the JS idiom
if (!m[k]) m[k] = []; m[k].push(x). -/
def pushA : List (String × List String) → String → String → List (String × List String)
  | [], key, x => [(key, [x])]
  | (k, l) :: rest, key, x =>
      if k = key then (k, l ++ [x]) :: rest else (k, l) :: pushA rest key x

-- ===== string primitives on character lists =====

/-- Test whether a character list starts with a pattern list. -/
def listStartsWith : List Char → List Char → Bool
  | _, [] => true
  | [], _ :: _ => false
  | a :: as, b :: bs => a == b && listStartsWith as bs

/-- Substring test on character lists (the JS String.includes semantics). -/
def listHasSub : List Char → List Char → Bool
  | [], pat => pat.isEmpty
  | a :: as, pat => listStartsWith (a :: as) pat || listHasSub as pat

/-- JS s.includes(t). -/
def strContains (s t : String) : Bool := listHasSub s.data t.data

/-- JS s.startsWith(t), implemented on the character lists so that proofs
can evaluate it. -/
def strStartsWith (s t : String) : Bool := listStartsWith s.data t.data

/-- JS s.endsWith(t). -/
def strEndsWith (s t : String) : Bool :=
  listStartsWith s.data.reverse t.data.reverse

/-- Whitespace for the JS trim (the ASCII whitespace the inputs here can
carry). -/
def jsWS (c : Char) : Bool := c = ' ' || c = '\t' || c = '\n' || c = '\r'

/-- JS s.trim(). -/
def jsTrim (s : String) : String :=
  String.mk (((s.data.dropWhile jsWS).reverse.dropWhile jsWS).reverse)

-- ===== rate limiter (class RateLimiter) =====

/-- Constant FREE_TIER_DAILY_LIMIT. -/
def FREE_TIER_DAILY_LIMIT : Nat := 10

/-- One per-client record: count of admitted requests and the end of the
rolling window in epoch seconds. -/
structure RateRecord where
  count : Nat
  reset_at : ℚ
  deriving DecidableEq, Repr

/-- In-memory state of the RateLimiter class: the clients map and the
lastCleanup timestamp in milliseconds. -/
structure RLState where
  clients : List (String × RateRecord)
  lastCleanup : ℚ
  deriving DecidableEq, Repr

/-- Result of RateLimiter.check. -/
structure CheckResult where
  allowed : Bool
  remaining : Nat
  deriving DecidableEq, Repr

/-- Private method cleanup: delete every record whose window has elapsed. -/
def RateLimiter.cleanup (now : ℚ) (clients : List (String × RateRecord)) :
    List (String × RateRecord) :=
  clients.filter (fun e => decide (now < e.2.reset_at))

/-- Method RateLimiter.check(ip), the sole mutating entry point.  The
argument nowMs is the value of Date.now(); the method works with
now = nowMs / 1000 seconds.  The write-through persist() calls are
filesystem effects and are not part of the in-memory transition. -/
def RateLimiter.check (s : RLState) (ip : String) (nowMs : ℚ) :
    CheckResult × RLState :=
  let now : ℚ := nowMs / 1000
  let clients :=
    if nowMs - s.lastCleanup > 3600000 then RateLimiter.cleanup now s.clients
    else s.clients
  let lastCleanup :=
    if nowMs - s.lastCleanup > 3600000 then nowMs else s.lastCleanup
  match lookupA clients ip with
  | none =>
      (⟨true, FREE_TIER_DAILY_LIMIT - 1⟩,
       ⟨setA clients ip ⟨1, now + 86400⟩, lastCleanup⟩)
  | some entry =>
      if now ≥ entry.reset_at then
        (⟨true, FREE_TIER_DAILY_LIMIT - 1⟩,
         ⟨setA clients ip ⟨1, now + 86400⟩, lastCleanup⟩)
      else if entry.count ≥ FREE_TIER_DAILY_LIMIT then
        (⟨false, 0⟩, ⟨clients, lastCleanup⟩)
      else
        (⟨true, FREE_TIER_DAILY_LIMIT - (entry.count + 1)⟩,
         ⟨setA clients ip ⟨entry.count + 1, entry.reset_at⟩, lastCleanup⟩)

/-- Run RateLimiter.check once per timestamp in the given list, threading the
state, and collect the results in order. -/
def RateLimiter.runChecks (s : RLState) (ip : String) :
    List ℚ → List CheckResult × RLState
  | [] => ([], s)
  | t :: ts =>
      let (r, s') := RateLimiter.check s ip t
      let (rs, s'') := RateLimiter.runChecks s' ip ts
      (r :: rs, s'')

-- ===== path guard (validatePath) =====

/-- Constant BLOCKED_PATHS. -/
def BLOCKED_PATHS : List String :=
  ["/opt/claude-ceo", "/etc", "/root", "/proc",
   "/sys", "/dev", "/run", "/boot", "/usr", "/bin", "/sbin",
   "/lib", "/snap", "/mnt", "/media"]

/-- Return shape of validatePath. -/
structure PathVerdict where
  safe : Bool
  error : String
  deriving DecidableEq, Repr

/-- Function validatePath.  Canonical resolution (fs.realpathSync) is a
filesystem effect, so it is passed in as a function; none models a thrown
exception (nonexistent path, permission denied, broken link).  The function
itself is pure: it only inspects the resolved string against BLOCKED_PATHS. -/
def validatePath (resolve : String → Option String) (projectPath : String) :
    PathVerdict :=
  match resolve projectPath with
  | none => ⟨false, "Invalid path: " ++ projectPath⟩
  | some resolved =>
      match BLOCKED_PATHS.find? (fun blocked =>
          resolved == blocked || strStartsWith resolved (blocked ++ "/")) with
      | some blocked =>
          ⟨false, "Access denied: scanning " ++ blocked ++
            " is not allowed for security reasons"⟩
      | none => ⟨true, ""⟩

-- ===== client identity (getClientIp) =====

/-- Value of a request header in node: absent, a single string, or an array
of strings. -/
inductive HVal
  | missing
  | str (s : String)
  | arr (l : List String)
  deriving DecidableEq, Repr

/-- JS truthiness of a header value: undefined and the empty string are
falsy, every array (even empty) is truthy. -/
def HVal.truthy : HVal → Bool
  | .missing => false
  | .str s => !(s == "")
  | .arr _ => true

/-- Connection metadata consumed by getClientIp: the x-forwarded-for header
and socket.remoteAddress (none models an absent socket or address; the empty
string models a present but empty address, which is falsy in JS). -/
structure ReqInfo where
  xfwd : HVal
  remoteAddress : Option String
  deriving DecidableEq, Repr

/-- Fallback branch of getClientIp: req.socket?.remoteAddress or unknown,
where the JS or-operator also replaces an empty string. -/
def remoteOrUnknown (r : ReqInfo) : String :=
  match r.remoteAddress with
  | some ra => if ra == "" then "unknown" else ra
  | none => "unknown"

/-- First comma-separated piece of a forwarded header value, trimmed:
value.split(",")[0].trim(). -/
def firstForwarded (s : String) : String :=
  jsTrim (String.mk (s.data.takeWhile (fun c => c != ',')))

/-- Function getClientIp.  Returns none exactly where the JS code would throw
a TypeError (a truthy array-valued header with no elements, so that
forwarded[0] is undefined and .split crashes). -/
def getClientIp (r : ReqInfo) : Option String :=
  if r.xfwd.truthy then
    match r.xfwd with
    | .str s => some (firstForwarded s)
    | .arr [] => none
    | .arr (a :: _) => some (firstForwarded a)
    | .missing => some (remoteOrUnknown r)
  else
    some (remoteOrUnknown r)

-- ===== api key store (class ApiKeyManager) =====

/-- One api-key record as held in the in-memory map of ApiKeyManager. -/
structure KeyInfo where
  email : String
  plan : String
  active : Bool
  deriving DecidableEq, Repr

/-- Method ApiKeyManager.verify(key) on the in-memory view: the plan and
email if the key exists and is active, else none.  The periodic reload from
disk replaces the whole map and is a filesystem effect outside this
transition; verify never throws. -/
def ApiKeyManager.verify (keys : List (String × KeyInfo)) (key : String) :
    Option (String × String) :=
  match lookupA keys key with
  | some entry => if entry.active then some (entry.email, entry.plan) else none
  | none => none

-- ===== session gateway, tools/call admission (httpServer handler) =====

/-- Observable steps of the established-session request handler, in program
order.  A dispatch step is transport.handleRequest, the only point from which
the tool pipeline (path guard, walker, detection, compliance) can run; a
reply429 step is the short-circuit rate-limit error response. -/
inductive GEvent
  | rateCheck
  | reply429
  | dispatch
  deriving DecidableEq, Repr

/-- Key-verification step of the httpServer request handler for a tools/call
request: true exactly when a key was supplied and verifies to an active
record on the pro plan. -/
def isProKey (keys : List (String × KeyInfo)) (apiKey : Option String) : Bool :=
  match apiKey with
  | some k =>
      match ApiKeyManager.verify keys k with
      | some (_, plan) => plan == "pro"
      | none => false
  | none => false

/-- Admission logic of the httpServer request handler for a request routed
to an established session whose body contains a tools/call request: bypass
the limiter for an active pro-plan key, otherwise consult the limiter and
short-circuit with the 429 error response on denial.  The returned event
list records which steps ran, in order; the RLState is the limiter state
after the request. -/
def handleToolsCall (keys : List (String × KeyInfo)) (lim : RLState)
    (apiKey : Option String) (ip : String) (nowMs : ℚ) :
    List GEvent × RLState :=
  if isProKey keys apiKey then ([GEvent.dispatch], lim)
  else
    let (res, lim') := RateLimiter.check lim ip nowMs
    if res.allowed then ([GEvent.rateCheck, GEvent.dispatch], lim')
    else ([GEvent.rateCheck, GEvent.reply429], lim')

-- ===== filesystem model =====

/-- A directory tree as seen through fs.readdirSync with file types: each
entry is a file (with its stat size and text content) or a subdirectory. -/
inductive FSEntry
  | file (name : String) (size : Nat) (content : String)
  | dir (name : String) (entries : List FSEntry)

mutual

/-- Number of nodes of an entry, used as the walker termination measure. -/
def FSEntry.nodes : FSEntry → Nat
  | .file _ _ _ => 1
  | .dir _ es => 1 + nodesOf es

/-- Number of nodes of an entry list. -/
def nodesOf : List FSEntry → Nat
  | [] => 0
  | e :: es => e.nodes + nodesOf es

end

/-- Flat view of a filesystem for the existence checks and content reads of
the compliance code: exists? is fs.existsSync on a full path, read is
fs.readFileSync (total here: the compliance claims do not exercise the
throwing read path, and a missing file reads as the empty string). -/
structure FS where
  exists? : String → Bool
  read : String → String

/-- Function path.join for the root/name concatenations the code performs
(roots are taken without a trailing slash). -/
def pathJoin (a b : String) : String := a ++ "/" ++ b

/-- Function path.extname: suffix from the last dot, empty when there is no
dot or the only dot is the leading character of the name. -/
def extname (name : String) : String :=
  match (name.toList.reverse.takeWhile (fun c => c ≠ '.')) with
  | rev =>
      if rev.length = name.length then ""
      else if rev.length + 1 = name.length then ""
      else String.mk ('.' :: rev.reverse)

-- ===== bounded walker (walkDir / walkConfigFiles) =====

/-- Constant MAX_FILES. -/
def MAX_FILES : Nat := 5000

/-- Constant MAX_FILE_SIZE. -/
def MAX_FILE_SIZE : Nat := 1000000

/-- Constant CODE_EXTENSIONS. -/
def CODE_EXTENSIONS : List String :=
  [".py", ".js", ".ts", ".java", ".go", ".rs", ".cpp", ".c"]

/-- Constant CONFIG_FILE_NAMES. -/
def CONFIG_FILE_NAMES : List String :=
  ["package.json", "package-lock.json", "requirements.txt", "requirements-dev.txt",
   "setup.py", "setup.cfg", "pyproject.toml", "Pipfile", "Pipfile.lock",
   "Cargo.toml", "go.mod", "Gemfile", "composer.json"]

/-- Shared skip test of both walkers: hidden entries and known noise
directories, by name. -/
def skipName (n : String) : Bool :=
  strStartsWith n "." || n == "node_modules" || n == "__pycache__"

/-- File filter of walkDir: allowlisted extension and size within the
per-file byte limit (the stat > filter comparison stat.size <= MAX_FILE_SIZE). -/
def codeFileOk (name : String) (size : Nat) : Bool :=
  CODE_EXTENSIONS.contains (extname name) && size ≤ MAX_FILE_SIZE

/-- File filter of walkConfigFiles: exact-name allowlist and the same size
limit. -/
def configFileOk (name : String) (size : Nat) : Bool :=
  CONFIG_FILE_NAMES.contains name && size ≤ MAX_FILE_SIZE

/-- Termination measure of the work queue: total node count of the queued
entry lists. -/
def queueNodes (q : List (String × List FSEntry)) : Nat :=
  (q.map (fun p => nodesOf p.2)).sum

/-- Main loop of the walkers.  The source keeps a queue of directory paths
and runs a for-loop over readdirSync of the popped directory; here the queue
head carries the remaining unprocessed entries of the current directory, so
one step processes one entry.  This is the same computation: the cap test
runs before every entry (the for-loop break, and the while condition at pop
time), subdirectories are appended at the back of the queue in entry order
(breadth-first), hidden and noise names are skipped, and files pass the
filter before joining the result.  Directory read failures are not modelled
(a readable tree is given). -/
def walkAux (fileOk : String → Nat → Bool) (maxFiles : Nat) :
    List String → List (String × List FSEntry) → List String
  | acc, [] => acc
  | acc, (_, []) :: rest => walkAux fileOk maxFiles acc rest
  | acc, (cur, e :: es) :: rest =>
      if acc.length ≥ maxFiles then acc
      else
        match e with
        | .dir n sub =>
            if skipName n then walkAux fileOk maxFiles acc ((cur, es) :: rest)
            else walkAux fileOk maxFiles acc
              (((cur, es) :: rest) ++ [(pathJoin cur n, sub)])
        | .file n sz _ =>
            if skipName n then walkAux fileOk maxFiles acc ((cur, es) :: rest)
            else if fileOk n sz then
              walkAux fileOk maxFiles (acc ++ [pathJoin cur n]) ((cur, es) :: rest)
            else walkAux fileOk maxFiles acc ((cur, es) :: rest)
  termination_by _ q => 2 * queueNodes q + q.length
  decreasing_by
    all_goals
      simp [queueNodes, nodesOf, FSEntry.nodes, List.sum_append]
    all_goals omega

/-- Function walkDir: bounded breadth-first collection of allowlisted code
files under a root whose directory entries are given. -/
def walkDir (dir : String) (entries : List FSEntry) (maxFiles : Nat) :
    List String :=
  walkAux codeFileOk maxFiles [] [(dir, entries)]

/-- Function walkConfigFiles: the same traversal with the exact-name
manifest allowlist. -/
def walkConfigFiles (dir : String) (entries : List FSEntry) (maxFiles : Nat) :
    List String :=
  walkAux configFileOk maxFiles [] [(dir, entries)]

/-- Uncapped variant of the walker loop, used to state what the capped walk
truncates: same traversal with no file cap. -/
def bfsAux (fileOk : String → Nat → Bool) :
    List String → List (String × List FSEntry) → List String
  | acc, [] => acc
  | acc, (_, []) :: rest => bfsAux fileOk acc rest
  | acc, (cur, e :: es) :: rest =>
      match e with
      | .dir n sub =>
          if skipName n then bfsAux fileOk acc ((cur, es) :: rest)
          else bfsAux fileOk acc (((cur, es) :: rest) ++ [(pathJoin cur n, sub)])
      | .file n sz _ =>
          if skipName n then bfsAux fileOk acc ((cur, es) :: rest)
          else if fileOk n sz then
            bfsAux fileOk (acc ++ [pathJoin cur n]) ((cur, es) :: rest)
          else bfsAux fileOk acc ((cur, es) :: rest)
  termination_by _ q => 2 * queueNodes q + q.length
  decreasing_by
    all_goals
      simp [queueNodes, nodesOf, FSEntry.nodes, List.sum_append]
    all_goals omega

mutual

/-- Reference enumeration of the files a walk can ever return below one
entry: a depth-first collection of the non-skipped files that pass the
filter.  Each matching file of the tree contributes its path exactly once. -/
def matchedIn (fileOk : String → Nat → Bool) (cur : String) : FSEntry → List String
  | .file n sz _ =>
      if !skipName n && fileOk n sz then [pathJoin cur n] else []
  | .dir n sub =>
      if skipName n then [] else matchedList fileOk (pathJoin cur n) sub

/-- Reference enumeration over an entry list. -/
def matchedList (fileOk : String → Nat → Bool) (cur : String) :
    List FSEntry → List String
  | [] => []
  | e :: es => matchedIn fileOk cur e ++ matchedList fileOk cur es

end

-- ===== detection engine (scanProject inner loops) =====

/-- A pattern matcher: the regexes of the pattern tables are data applied to
file content, embedded as boolean content predicates. -/
abbrev Pattern : Type := String → Bool

/-- Case-insensitive literal regex such as /import openai/i: a
case-insensitive substring test. -/
def rxLit (lit : String) : Pattern :=
  fun content => listHasSub content.toLower.data lit.toLower.data

/-- A category table: ordered (category, ordered matcher list) pairs, the
shape of Object.entries on the pattern record. -/
abbrev PatTable : Type := List (String × List Pattern)

/-- Constant AI_MODEL_PATTERNS.  Every regex in the source table is a
case-insensitive literal (escaped dots and parentheses), so each is embedded
as its literal substring matcher. -/
def AI_MODEL_PATTERNS : PatTable :=
  [("openai",
    [rxLit "openai.ChatCompletion", rxLit "openai.Completion",
     rxLit "from openai import", rxLit "import openai",
     rxLit "gpt-3.5", rxLit "gpt-4", rxLit "text-davinci"]),
   ("anthropic",
    [rxLit "from anthropic import", rxLit "import anthropic",
     rxLit "claude-", rxLit "Anthropic()", rxLit "messages.create"]),
   ("huggingface",
    [rxLit "from transformers import", rxLit "AutoModel", rxLit "AutoTokenizer",
     rxLit "pipeline(", rxLit "huggingface_hub"]),
   ("tensorflow",
    [rxLit "import tensorflow", rxLit "from tensorflow import", rxLit "tf.keras"]),
   ("pytorch",
    [rxLit "import torch", rxLit "from torch import", rxLit "nn.Module"]),
   ("langchain",
    [rxLit "from langchain import", rxLit "import langchain",
     rxLit "LLMChain", rxLit "ChatOpenAI"])]

/-- Inner pattern loop of the scan: patterns are tested in order and the
loop breaks at the first hit, so only whether some pattern hits is
observable. -/
def firstPatternHit : List Pattern → String → Bool
  | [], _ => false
  | p :: ps, content => if p content then true else firstPatternHit ps content

/-- Category loop of the scan for one file: for each category whose pattern
list hits the content, the relative path is pushed onto that category entry
of the detected map and the category joins the per-file detection list, in
table order. -/
def detectCats (pats : PatTable) (rel : String) (content : String)
    (dm : List (String × List String)) :
    List (String × List String) × List String :=
  match pats with
  | [] => (dm, [])
  | (cat, ps) :: rest =>
      if firstPatternHit ps content then
        let (dm', ds) := detectCats rest rel content (pushA dm cat rel)
        (dm', cat :: ds)
      else detectCats rest rel content dm

/-- File loop of the scan: threads the detected map through the files in
walk order and collects the per-file entries (file, frameworks) for every
file with at least one detection; the new Set dedup in the source is the
eraseDups on the per-file category list. -/
def detectLoop (pats : PatTable) :
    List (String × String) → List (String × List String) →
    List (String × List String) × List (String × List String)
  | [], dm => (dm, [])
  | (rel, content) :: rest, dm =>
      let (dm', ds) := detectCats pats rel content dm
      let (dmF, ai) := detectLoop pats rest dm'
      (dmF, if ds.isEmpty then ai else (rel, ds.eraseDups) :: ai)

/-- Function path.relative(projectPath, filePath) for the paths the walker
produces, which all extend the root by a slash: drop the root and the
slash. -/
def pathRelative (root p : String) : String :=
  String.mk (p.data.drop (root.data.length + 1))

/-- Response value of scanProject: optional fields model which properties
the returned JS object carries. -/
structure ScanOut where
  error : Option String
  files_scanned : Option Nat
  ai_files : Option (List (String × List String))
  detected_models : Option (List (String × List String))
  deriving Repr

/-- Function scanProject: path guard, existence check, bounded walk, then
the detection loops.  Unreadable files (the try/catch continue around
readFileSync) are not modelled: every walked file is readable through
FS.read. -/
def scanProject (pats : PatTable) (resolve : String → Option String)
    (fsys : FS) (entries : List FSEntry) (projectPath : String) : ScanOut :=
  let v := validatePath resolve projectPath
  if !v.safe then ⟨some v.error, none, none, some []⟩
  else if !fsys.exists? projectPath then
    ⟨some ("Project path does not exist: " ++ projectPath), none, none, some []⟩
  else
    let files := walkDir projectPath entries MAX_FILES
    let fcs := files.map (fun f => (pathRelative projectPath f, fsys.read f))
    let (dm, ai) := detectLoop pats fcs []
    ⟨none, some files.length, some ai, some dm⟩

-- ===== compliance evaluator (checkCompliance and helpers) =====

/-- Constant RISK_CATEGORIES: description and requirement texts per
category. -/
def RISK_CATEGORIES : List (String × (String × List String)) :=
  [("unacceptable",
    ("Prohibited systems (behavioral manipulation, social scoring, mass biometric surveillance)",
     ["Prohibited system - Do not deploy"])),
   ("high",
    ("High-risk systems (recruitment, credit scoring, law enforcement)",
     ["Complete technical documentation", "Risk management system",
      "Data quality and governance", "Transparency and user information",
      "Human oversight", "Robustness, accuracy and cybersecurity",
      "Quality management system", "Registration in EU database"])),
   ("limited",
    ("Limited-risk systems (chatbots, deepfakes)",
     ["Transparency obligations", "Clear user information about AI interaction",
      "AI-generated content marking"])),
   ("minimal",
    ("Minimal-risk systems (spam filters, video games)",
     ["No specific obligations", "Voluntary code of conduct encouraged"]))]

/-- Function fileExists: look for the file at the project root and in the
docs subdirectory. -/
def fileExists (fsys : FS) (projectPath filename : String) : Bool :=
  fsys.exists? (pathJoin projectPath filename) ||
  fsys.exists? (pathJoin (pathJoin projectPath "docs") filename)

/-- Alternatives of the placeholder regex of checkFileQuality, each a
literal started by an opening bracket. -/
def PLACEHOLDER_ALTS : List String :=
  ["[Your ", "[e.g.", "[Date", "[Duration", "[Role", "[Describe", "[Email"]

/-- Count of placeholder-regex matches in a character list: one per position
where an alternative begins (matches cannot overlap, because every
alternative starts with the bracket and contains no further bracket). -/
def countPlaceholdersAux : List Char → Nat
  | [] => 0
  | c :: cs =>
      (if PLACEHOLDER_ALTS.any (fun a => listStartsWith (c :: cs) a.data) then 1 else 0)
      + countPlaceholdersAux cs

/-- Number of unfilled placeholder markers in a file content (the global
match count of the placeholder regex). -/
def countPlaceholders (s : String) : Nat := countPlaceholdersAux s.data

/-- Return shape of checkFileQuality. -/
structure FileQuality where
  found : Bool
  customized : Bool
  unfilled_placeholders : Nat
  deriving DecidableEq, Repr

/-- Function checkFileQuality: first match in root then docs, threshold of
two unfilled placeholders for the customization flag; the throwing-read
branch (placeholders reported as -1) is not modelled, reads are total. -/
def checkFileQuality (fsys : FS) (projectPath filename : String) : FileQuality :=
  if fsys.exists? (pathJoin projectPath filename) then
    let unfilled := countPlaceholders (fsys.read (pathJoin projectPath filename))
    ⟨true, unfilled ≤ 2, unfilled⟩
  else if fsys.exists? (pathJoin (pathJoin projectPath "docs") filename) then
    let unfilled :=
      countPlaceholders (fsys.read (pathJoin (pathJoin projectPath "docs") filename))
    ⟨true, unfilled ≤ 2, unfilled⟩
  else ⟨false, false, 0⟩

/-- JS Math.round: round half toward positive infinity. -/
def jsRound (q : ℚ) : ℤ := ⌊q + 1 / 2⌋

/-- Response value of checkCompliance. -/
structure ComplianceOut where
  error : Option String
  risk_category : Option String
  description : Option String
  requirements : Option (List String)
  compliance_status : Option (List (String × Bool))
  compliance_score : Option String
  compliance_percentage : Option ℚ
  deriving Repr

/-- Final lines of checkCompliance: the response record with the score
string and rounded percentage computed from the checklist. -/
def mkComplianceOut (riskCategory : String) (info : String × List String)
    (status : List (String × Bool)) : ComplianceOut :=
  let total := status.length
  let passed := (status.filter (fun e => e.2)).length
  ⟨none, some riskCategory, some info.1, some info.2, some status,
   some (toString passed ++ "/" ++ toString total),
   some (if total > 0 then (jsRound ((passed : ℚ) * 1000 / total) : ℚ) / 10 else 0)⟩

/-- Function checkCompliance.  The checklist per category is fixed; the
limited branch reads the README, searches it for AI keywords, and walks up
to 500 files for python files carrying a generated-content marker. -/
def checkCompliance (fsys : FS) (entries : List FSEntry)
    (projectPath riskCategory : String) : ComplianceOut :=
  match lookupA RISK_CATEGORIES riskCategory with
  | none =>
      ⟨some ("Invalid risk category: " ++ riskCategory ++
        ". Valid: unacceptable, high, limited, minimal"),
       none, none, none, none, none, none⟩
  | some info =>
      let readmeExists := fsys.exists? (pathJoin projectPath "README.md")
      let status : List (String × Bool) :=
        if riskCategory == "high" then
          [("technical_documentation",
            ["README.md", "ARCHITECTURE.md", "API.md", "docs"].any
              (fun d => fsys.exists? (pathJoin projectPath d))),
           ("risk_management", fileExists fsys projectPath "RISK_MANAGEMENT.md"),
           ("transparency",
            fileExists fsys projectPath "TRANSPARENCY.md" || readmeExists),
           ("data_governance", fileExists fsys projectPath "DATA_GOVERNANCE.md"),
           ("human_oversight", fileExists fsys projectPath "HUMAN_OVERSIGHT.md"),
           ("robustness", fileExists fsys projectPath "ROBUSTNESS.md")]
        else if riskCategory == "limited" then
          let readmeLower :=
            if readmeExists then (fsys.read (pathJoin projectPath "README.md")).toLower
            else ""
          let aiKeywords := ["ai", "artificial intelligence", "machine learning",
            "deep learning", "gpt", "claude", "llm"]
          let pyFiles := (walkDir projectPath entries 500).filter
            (fun f => strEndsWith f ".py")
          let markers := ["generated by ai", "généré par ia", "ai-generated",
            "machine-generated"]
          [("transparency",
            readmeExists || fileExists fsys projectPath "TRANSPARENCY.md"),
           ("user_disclosure", aiKeywords.any (fun kw => strContains readmeLower kw)),
           ("content_marking",
            pyFiles.any (fun f =>
              markers.any (fun m => strContains (fsys.read f).toLower m)))]
        else if riskCategory == "minimal" then
          [("basic_documentation", readmeExists)]
        else []
      mkComplianceOut riskCategory info status

/-- Title casing of a checklist key in the recommendation strings:
underscores become spaces and every word-initial character is
uppercased. -/
def titleCaseAux : Bool → List Char → List Char
  | _, [] => []
  | boundary, c :: cs =>
      (if boundary then c.toUpper else c) :: titleCaseAux (!c.isAlphanum) cs

/-- JS check.replace(underscores, space).replace(word starts, uppercase). -/
def titleCase (s : String) : String :=
  String.mk (titleCaseAux true (s.data.map (fun c => if c = '_' then ' ' else c)))

/-- Response value of generateReport. -/
structure ReportOut where
  error : Option String
  report_date : Option String
  project_path : Option String
  scan_summary : Option (Nat × Nat × List String)
  compliance_summary : Option (String × String × ℚ)
  detailed_findings :
    Option (List (String × List String) × List (String × Bool) × List String)
  recommendations : Option (List String)
  deriving Repr

/-- Function generateReport: scan, then compliance, each short-circuiting on
an error, then the combined report with recommendations derived from failed
checklist items.  The report date (new Date().toISOString()) is passed
in. -/
def generateReport (pats : PatTable) (resolve : String → Option String)
    (fsys : FS) (entries : List FSEntry)
    (projectPath riskCategory reportDate : String) : ReportOut :=
  let scan := scanProject pats resolve fsys entries projectPath
  match scan.error with
  | some e => ⟨some e, none, none, none, none, none, none⟩
  | none =>
      let compliance := checkCompliance fsys entries projectPath riskCategory
      match compliance.error with
      | some e => ⟨some e, none, none, none, none, none, none⟩
      | none =>
          let compStatus := compliance.compliance_status.getD []
          let recs := (compStatus.filter (fun e => !e.2)).map
            (fun e => "MISSING: Create documentation for: " ++ titleCase e.1)
          let recs := if recs.isEmpty then ["All basic checks passed"] else recs
          let recs :=
            if riskCategory == "high" then
              recs ++ ["WARNING: High-risk system - EU database registration required before deployment"]
            else if riskCategory == "limited" then
              recs ++ ["INFO: Limited-risk system - Ensure full transparency compliance"]
            else recs
          ⟨none, some reportDate, some projectPath,
           some (scan.files_scanned.getD 0, (scan.ai_files.getD []).length,
             (scan.detected_models.getD []).map Prod.fst),
           some (riskCategory, compliance.compliance_score.getD "0/0",
             compliance.compliance_percentage.getD 0),
           some (scan.detected_models.getD [], compStatus,
             compliance.requirements.getD []),
           some recs⟩

-- ===== gdpr scanning and compliance =====

/-- Constant GDPR_REQUIREMENTS. -/
def GDPR_REQUIREMENTS : List (String × (String × List String)) :=
  [("controller",
    ("Data controller (you decide why and how personal data is processed)",
     ["Lawful basis for processing (Art. 6)", "Privacy notice (Art. 13-14)",
      "DPIA if high risk (Art. 35)", "Records of processing (Art. 30)",
      "DPO if required (Art. 37)", "Data breach notification (Art. 33-34)",
      "Data subject rights (Art. 15-22)", "DPA with processors (Art. 28)"])),
   ("processor",
    ("Data processor (you process data on behalf of a controller)",
     ["DPA with controller (Art. 28)", "Records of processing (Art. 30)",
      "Security measures (Art. 32)", "Breach notification to controller (Art. 33)"])),
   ("minimal_processing",
    ("Minimal personal data processing",
     ["Privacy notice (Art. 13)", "Lawful basis documented (Art. 6)",
      "Basic security (Art. 32)"]))]

/-- Processing summary computed by gdprScanProject. -/
structure ProcessingSummary where
  processes_personal_data : Bool
  risk_level : String
  positive_signals : List String
  processing_role : String
  deriving DecidableEq, Repr

/-- Response value of gdprScanProject. -/
structure GdprScanOut where
  error : Option String
  files_scanned : Option Nat
  flagged_files : Option (List (String × List String))
  detected_patterns : Option (List (String × List String))
  processing_summary : Option ProcessingSummary
  deriving Repr

/-- Function gdprScanProject.  The two regex tables (GDPR_CODE_PATTERNS over
code files and GDPR_CONFIG_PATTERNS over manifest files) contain
word-boundary and wildcard regexes; per the data-driven design they are
passed in as tables of content predicates, iterated by the same detection
loop as the AI scan. -/
def gdprScanProject (codePats configPats : PatTable)
    (resolve : String → Option String) (fsys : FS) (entries : List FSEntry)
    (projectPath : String) : GdprScanOut :=
  let v := validatePath resolve projectPath
  if !v.safe then ⟨some v.error, none, none, some [], none⟩
  else if !fsys.exists? projectPath then
    ⟨some ("Path does not exist: " ++ projectPath), none, none, some [], none⟩
  else
    let files := walkDir projectPath entries MAX_FILES
    let fcs := files.map (fun f => (pathRelative projectPath f, fsys.read f))
    let (dm1, ff1) := detectLoop codePats fcs []
    let configFiles := walkConfigFiles projectPath entries MAX_FILES
    let ccs := configFiles.map (fun f => (pathRelative projectPath f, fsys.read f))
    let (dm, ff2) := detectLoop configPats ccs dm1
    let hasPii := (lookupA dm "pii_fields").isSome ||
      (lookupA dm "database_queries").isSome
    let hasTracking := (lookupA dm "user_tracking").isSome
    let hasConsent := (lookupA dm "consent_mechanism").isSome
    let hasDeletion := (lookupA dm "data_deletion").isSome ||
      (lookupA dm "data_export").isSome
    let hasEncryption := (lookupA dm "encryption_usage").isSome
    let hasGeo := (lookupA dm "geolocation").isSome
    let riskFactors :=
      ([hasPii, hasTracking, hasGeo, !hasConsent && hasPii].filter id).length
    ⟨none, some files.length, some (ff1 ++ ff2), some dm,
     some ⟨hasPii || hasTracking,
       (if riskFactors ≥ 3 then "high"
        else if riskFactors ≥ 1 then "medium" else "low"),
       ((if hasConsent then ["Consent mechanism detected"] else []) ++
        (if hasDeletion then ["Data deletion/export detected"] else []) ++
        (if hasEncryption then ["Encryption usage detected"] else [])),
       (if hasPii then "controller"
        else if hasTracking then "processor" else "minimal_processing")⟩⟩

/-- Response value of gdprCheckCompliance; scan_summary carries the
processing summary of the inner scan, or nothing when that scan failed (the
empty-object fallback of the source). -/
structure GdprComplianceOut where
  error : Option String
  regulation : Option String
  processing_role : Option String
  description : Option String
  requirements : Option (List String)
  compliance_status : Option (List (String × Bool))
  compliance_score : Option String
  compliance_percentage : Option ℚ
  quality_notes : Option (List (String × String))
  scan_summary : Option (Option ProcessingSummary)
  deriving Repr

/-- Function gdprCheckCompliance: role check, inner gdpr scan (whose error
is not propagated: detected patterns default to empty), fixed checklist plus
controller-only items, template-quality notes, and the score fields. -/
def gdprCheckCompliance (codePats configPats : PatTable)
    (resolve : String → Option String) (fsys : FS) (entries : List FSEntry)
    (projectPath processingRole : String) : GdprComplianceOut :=
  match lookupA GDPR_REQUIREMENTS processingRole with
  | none =>
      ⟨some ("Invalid role: " ++ processingRole ++
        ". Valid: controller, processor, minimal_processing"),
       none, none, none, none, none, none, none, none, none⟩
  | some info =>
      let scan := gdprScanProject codePats configPats resolve fsys entries projectPath
      let dp := scan.detected_patterns.getD []
      let statusBase : List (String × Bool) :=
        [("privacy_policy",
          fileExists fsys projectPath "PRIVACY_POLICY.md" ||
          fileExists fsys projectPath "privacy-policy.md"),
         ("consent_mechanism", (lookupA dp "consent_mechanism").isSome),
         ("data_subject_rights",
          (lookupA dp "data_deletion").isSome || (lookupA dp "data_export").isSome),
         ("security_measures", (lookupA dp "encryption_usage").isSome),
         ("records_of_processing",
          fileExists fsys projectPath "RECORDS_OF_PROCESSING.md")]
      let status :=
        if processingRole == "controller" then
          statusBase ++
          [("dpia",
            fileExists fsys projectPath "DPIA.md" ||
            fileExists fsys projectPath "DATA_PROTECTION_IMPACT_ASSESSMENT.md"),
           ("data_breach_procedure",
            fileExists fsys projectPath "DATA_BREACH_PROCEDURE.md"),
           ("dpa",
            fileExists fsys projectPath "DATA_PROCESSING_AGREEMENT.md" ||
            fileExists fsys projectPath "DPA.md")]
        else statusBase
      let fileChecks : List (String × String) :=
        [("privacy_policy", "PRIVACY_POLICY.md"),
         ("records_of_processing", "RECORDS_OF_PROCESSING.md")] ++
        (if processingRole == "controller" then
          [("dpia", "DPIA.md"),
           ("data_breach_procedure", "DATA_BREACH_PROCEDURE.md")]
         else [])
      let qualityNotes :=
        (fileChecks.filter (fun ck => (lookupA status ck.1).getD false)).filterMap
          (fun ck =>
            let q := checkFileQuality fsys projectPath ck.2
            if !q.customized then
              some (ck.1, "File exists but appears to be an unfilled template (" ++
                toString q.unfilled_placeholders ++ " placeholder sections remaining)")
            else none)
      let total := status.length
      let passed := (status.filter (fun e => e.2)).length
      ⟨none, some "GDPR", some processingRole, some info.1, some info.2,
       some status,
       some (toString passed ++ "/" ++ toString total),
       some (if total > 0 then (jsRound ((passed : ℚ) * 1000 / total) : ℚ) / 10 else 0),
       some qualityNotes, some scan.processing_summary⟩

/-- Response value of gdprGenerateReport. -/
structure GdprReportOut where
  error : Option String
  report_date : Option String
  regulation : Option String
  project_path : Option String
  scan_summary : Option (Nat × Nat × List String)
  processing_summary : Option (Option ProcessingSummary)
  compliance_summary : Option (String × String × ℚ)
  recommendations : Option (List String)
  deriving Repr

/-- Function gdprGenerateReport: scan, then compliance, each
short-circuiting on an error, then the combined report. -/
def gdprGenerateReport (codePats configPats : PatTable)
    (resolve : String → Option String) (fsys : FS) (entries : List FSEntry)
    (projectPath processingRole reportDate : String) : GdprReportOut :=
  let scan := gdprScanProject codePats configPats resolve fsys entries projectPath
  match scan.error with
  | some e => ⟨some e, none, none, none, none, none, none, none⟩
  | none =>
      let compliance := gdprCheckCompliance codePats configPats resolve fsys
        entries projectPath processingRole
      match compliance.error with
      | some e => ⟨some e, none, none, none, none, none, none, none⟩
      | none =>
          let compStatus := compliance.compliance_status.getD []
          let recs := (compStatus.filter (fun e => !e.2)).map
            (fun e => "MISSING: " ++ titleCase e.1 ++ " — required by GDPR")
          let recs := if recs.isEmpty then ["All basic GDPR checks passed"] else recs
          ⟨none, some reportDate, some "GDPR", some projectPath,
           some (scan.files_scanned.getD 0, (scan.flagged_files.getD []).length,
             (scan.detected_patterns.getD []).map Prod.fst),
           some scan.processing_summary,
           some (processingRole, compliance.compliance_score.getD "0/0",
             compliance.compliance_percentage.getD 0),
           some recs⟩

-- ===== gdpr templates =====

/-- One entry of the GDPR_TEMPLATES table: target filename and markdown
body.  The bodies are multi-page markdown documents whose text no claim
depends on, so the table is passed in as data. -/
structure TemplateEntry where
  filename : String
  content : String
  deriving DecidableEq, Repr

/-- Constant GDPR_TEMPLATE_MAPPING. -/
def GDPR_TEMPLATE_MAPPING : List (String × List String) :=
  [("controller",
    ["privacy_policy", "dpia", "records_of_processing", "data_breach_procedure"]),
   ("processor", ["records_of_processing", "data_breach_procedure"]),
   ("minimal_processing", ["privacy_policy"])]

/-- Response value of gdprGenerateTemplates; each template entry carries
(filename, content, instructions). -/
structure TemplatesOut where
  error : Option String
  regulation : Option String
  processing_role : Option String
  templates_count : Option Nat
  templates : Option (List (String × (String × String × String)))
  usage : Option String
  deriving Repr

/-- Function gdprGenerateTemplates: role check, then the applicable
templates of the mapping, rendered with a docs-prefixed filename and fill-in
instructions. -/
def gdprGenerateTemplates (tmpls : List (String × TemplateEntry))
    (processingRole : String) : TemplatesOut :=
  match lookupA GDPR_REQUIREMENTS processingRole with
  | none =>
      ⟨some ("Invalid role: " ++ processingRole ++
        ". Valid: controller, processor, minimal_processing"),
       none, none, none, none, none⟩
  | some _ =>
      let applicable :=
        (lookupA GDPR_TEMPLATE_MAPPING processingRole).getD ["privacy_policy"]
      let templates := applicable.filterMap (fun key =>
        match lookupA tmpls key with
        | some t =>
            some (key, ("docs/" ++ t.filename, t.content,
              "Save as docs/" ++ t.filename ++ ", fill in [bracketed] sections"))
        | none => none)
      ⟨none, some "GDPR", some processingRole, some templates.length,
       some templates,
       some "Save each template in the docs/ directory of the project. Fill in [bracketed] sections. Re-run gdpr_check_compliance to verify."⟩

-- ===== traversal-order traces of the tool operations =====

/-- Guard-relevant steps of a tool operation, in program order: a
validatePath call with its outcome, a walkDir call on a root, a
walkConfigFiles call on a root. -/
inductive OpEvent
  | validate (p : String) (ok : Bool)
  | walk (p : String)
  | walkConfig (p : String)
  deriving DecidableEq, Repr

/-- Steps of scanProject: validate, then (behind the guard and the existence
check) one walkDir on the root. -/
def scanProjectEvents (resolve : String → Option String) (fsys : FS)
    (p : String) : List OpEvent :=
  let v := validatePath resolve p
  OpEvent.validate p v.safe ::
    (if !v.safe then [] else if !fsys.exists? p then [] else [OpEvent.walk p])

/-- Steps of checkCompliance: no validatePath call anywhere; the limited
branch calls walkDir on the raw project path, the other branches do not
traverse. -/
def checkComplianceEvents (p riskCategory : String) : List OpEvent :=
  if (lookupA RISK_CATEGORIES riskCategory).isNone then []
  else if riskCategory == "limited" then [OpEvent.walk p] else []

/-- Steps of gdprScanProject: validate, then walkDir and walkConfigFiles on
the root. -/
def gdprScanEvents (resolve : String → Option String) (fsys : FS)
    (p : String) : List OpEvent :=
  let v := validatePath resolve p
  OpEvent.validate p v.safe ::
    (if !v.safe then [] else if !fsys.exists? p then []
     else [OpEvent.walk p, OpEvent.walkConfig p])

/-- Steps of gdprCheckCompliance: after the role check it runs
gdprScanProject (which guards its own traversals) and performs only
existence checks itself. -/
def gdprCheckComplianceEvents (resolve : String → Option String) (fsys : FS)
    (p processingRole : String) : List OpEvent :=
  if (lookupA GDPR_REQUIREMENTS processingRole).isNone then []
  else gdprScanEvents resolve fsys p

/-- Steps of generateReport: scanProject, then, unless the scan errored,
checkCompliance. -/
def generateReportEvents (resolve : String → Option String) (fsys : FS)
    (p riskCategory : String) : List OpEvent :=
  scanProjectEvents resolve fsys p ++
    (if (validatePath resolve p).safe && fsys.exists? p then
      checkComplianceEvents p riskCategory
     else [])

/-- Steps of gdprGenerateReport: gdprScanProject, then, unless the scan
errored, gdprCheckCompliance. -/
def gdprGenerateReportEvents (resolve : String → Option String) (fsys : FS)
    (p processingRole : String) : List OpEvent :=
  gdprScanEvents resolve fsys p ++
    (if (validatePath resolve p).safe && fsys.exists? p then
      gdprCheckComplianceEvents resolve fsys p processingRole
     else [])

/-- Validated-traversal discipline over a trace: every walk step must name a
root on which a validatePath step has already succeeded. -/
def walksValidated : List OpEvent → List String → Bool
  | [], _ => true
  | OpEvent.validate p true :: rest, v => walksValidated rest (p :: v)
  | OpEvent.validate _ false :: rest, v => walksValidated rest v
  | OpEvent.walk p :: rest, v => v.contains p && walksValidated rest v
  | OpEvent.walkConfig p :: rest, v => v.contains p && walksValidated rest v

-- =====================================================================
-- Theorems
-- =====================================================================

/-- C5: for every input path, validatePath returns unsafe with the
invalid-path error when canonical resolution throws; returns unsafe with an
access-denied error when the canonical path equals one of the denylisted
prefixes or lies strictly below one (so trailing slashes or symlink
indirection in the raw input are immaterial: only the canonical path is
compared); and otherwise reports safe.  The embedding is a pure function, so
the side-effect-freedom part of the claim holds by construction. -/
theorem claim_C5 (resolve : String → Option String) (p : String) :
    (resolve p = none →
      validatePath resolve p = ⟨false, "Invalid path: " ++ p⟩) ∧
    (∀ r, resolve p = some r →
      ((∃ b ∈ BLOCKED_PATHS, r = b ∨ strStartsWith r (b ++ "/") = true) →
        (validatePath resolve p).safe = false ∧
        ∃ b ∈ BLOCKED_PATHS, (validatePath resolve p).error =
          "Access denied: scanning " ++ b ++ " is not allowed for security reasons") ∧
      ((∀ b ∈ BLOCKED_PATHS, ¬(r = b ∨ strStartsWith r (b ++ "/") = true)) →
        validatePath resolve p = ⟨true, ""⟩)) := by
  refine ⟨fun h => by simp [validatePath, h], fun r hr => ⟨?_, ?_⟩⟩
  · rintro ⟨b, hb, hcond⟩
    rcases hfind : BLOCKED_PATHS.find?
        (fun blocked => r == blocked || strStartsWith r (blocked ++ "/")) with _ | b'
    · exfalso
      have hfb := List.find?_eq_none.mp hfind b hb
      rcases hcond with h | h
      · simp [h] at hfb
      · simp [h] at hfb
    · refine ⟨by simp [validatePath, hr, hfind],
        ⟨b', List.mem_of_find?_eq_some hfind, by simp [validatePath, hr, hfind]⟩⟩
  · intro hall
    have hnone : BLOCKED_PATHS.find?
        (fun blocked => r == blocked || strStartsWith r (blocked ++ "/")) = none := by
      refine List.find?_eq_none.mpr (fun b hb => ?_)
      have h := hall b hb
      push_neg at h
      simp [h.1, h.2]
    simp [validatePath, hr, hnone]

/-- Witness for C5 at concrete inputs: a throwing resolution, a canonical
path below the denylisted /etc, and a safe home path. -/
theorem claim_C5_witness :
    validatePath (fun _ => none) "/home/u/x" =
      ⟨false, "Invalid path: " ++ "/home/u/x"⟩ ∧
    (validatePath (fun _ => some "/etc/passwd") "/link").safe = false ∧
    validatePath (fun _ => some "/home/u/proj") "/home/u/proj" = ⟨true, ""⟩ := by
  refine ⟨(claim_C5 (fun _ => none) "/home/u/x").1 rfl, ?_, ?_⟩
  · exact (((claim_C5 (fun _ => some "/etc/passwd") "/link").2 "/etc/passwd" rfl).1
      ⟨"/etc", by decide, Or.inr (by decide)⟩).1
  · exact ((claim_C5 (fun _ => some "/home/u/proj") "/home/u/proj").2
      "/home/u/proj" rfl).2 (by decide)

/-- C10 counterexample: the forwarded-address header can be present with an
empty string value (a header sent with no value); JS truthiness then treats
it as absent, so getClientIp returns the socket address, while the claim
as stated requires the first comma-separated element of the header (the
empty string). -/
theorem claim_C10_counterexample :
    getClientIp ⟨HVal.str "", some "9.9.9.9"⟩ = some "9.9.9.9" ∧
    firstForwarded "" = "" ∧
    getClientIp ⟨HVal.str "", some "9.9.9.9"⟩ ≠ some (firstForwarded "") := by
  refine ⟨by decide, by decide, by decide⟩

/-- C10 amended: the client identity is the first comma-separated element of
the forwarded-address header, trimmed, when that header is present with a
non-empty string value (or a non-empty array value, whose first element is
used); a present but empty header value is treated as absent and falls back
to the socket remote address; and when the remote address is missing or
empty as well, the identity is the constant unknown, so all requests lacking
both identity sources share one rate-limit bucket. -/
theorem claim_C10_amended (r : ReqInfo) :
    (∀ s, r.xfwd = HVal.str s → s ≠ "" →
      getClientIp r = some (firstForwarded s)) ∧
    (∀ a t, r.xfwd = HVal.arr (a :: t) →
      getClientIp r = some (firstForwarded a)) ∧
    ((r.xfwd = HVal.missing ∨ r.xfwd = HVal.str "") →
      getClientIp r = some (remoteOrUnknown r)) ∧
    ((r.xfwd = HVal.missing ∨ r.xfwd = HVal.str "") →
      (r.remoteAddress = none ∨ r.remoteAddress = some "") →
      getClientIp r = some "unknown") := by
  obtain ⟨x, ra⟩ := r
  refine ⟨?_, ?_, ?_, ?_⟩
  · rintro s rfl hs
    simp [getClientIp, HVal.truthy, hs]
  · rintro a t rfl
    simp [getClientIp, HVal.truthy]
  · rintro (rfl | rfl) <;> simp [getClientIp, HVal.truthy]
  · rintro (rfl | rfl) (rfl | rfl) <;>
      simp [getClientIp, HVal.truthy, remoteOrUnknown]

/-- Witness for the amended C10 at concrete requests: a multi-hop forwarded
header, and a request with neither identity source. -/
theorem claim_C10_amended_witness :
    getClientIp ⟨HVal.str "1.2.3.4, 5.6.7.8", some "8.8.8.8"⟩ = some "1.2.3.4" ∧
    getClientIp ⟨HVal.missing, none⟩ = some "unknown" := by
  constructor
  · exact ((claim_C10_amended ⟨HVal.str "1.2.3.4, 5.6.7.8", some "8.8.8.8"⟩).1
      "1.2.3.4, 5.6.7.8" rfl (by decide)).trans (by decide)
  · exact (claim_C10_amended ⟨HVal.missing, none⟩).2.2.2 (Or.inl rfl) (Or.inl rfl)

/-- C2: for a tools/call request on an established session, a supplied key
that verifies to an active pro-plan record bypasses the limiter entirely
(the handler performs only the dispatch step and the limiter state is
untouched); otherwise the limiter is consulted, and on denial the handler
replies with the 429 rate-limit error and never dispatches, so the path
guard, walker, detection and compliance functions (reachable only through
the dispatch step) never run. -/
theorem claim_C2 (keys : List (String × KeyInfo)) (lim : RLState)
    (apiKey : Option String) (ip : String) (nowMs : ℚ) :
    (∀ k email, apiKey = some k →
      ApiKeyManager.verify keys k = some (email, "pro") →
      handleToolsCall keys lim apiKey ip nowMs = ([GEvent.dispatch], lim) ∧
      GEvent.rateCheck ∉ (handleToolsCall keys lim apiKey ip nowMs).1) ∧
    (isProKey keys apiKey = false →
      GEvent.rateCheck ∈ (handleToolsCall keys lim apiKey ip nowMs).1 ∧
      ((RateLimiter.check lim ip nowMs).1.allowed = false →
        handleToolsCall keys lim apiKey ip nowMs =
          ([GEvent.rateCheck, GEvent.reply429], (RateLimiter.check lim ip nowMs).2) ∧
        GEvent.dispatch ∉ (handleToolsCall keys lim apiKey ip nowMs).1) ∧
      ((RateLimiter.check lim ip nowMs).1.allowed = true →
        handleToolsCall keys lim apiKey ip nowMs =
          ([GEvent.rateCheck, GEvent.dispatch], (RateLimiter.check lim ip nowMs).2))) := by
  constructor
  · rintro k email rfl hv
    have hpro : isProKey keys (some k) = true := by
      simp [isProKey, hv]
    constructor
    · simp [handleToolsCall, hpro]
    · simp [handleToolsCall, hpro]
  · intro hfree
    have hstep :
        handleToolsCall keys lim apiKey ip nowMs =
          (if (RateLimiter.check lim ip nowMs).1.allowed then
            ([GEvent.rateCheck, GEvent.dispatch], (RateLimiter.check lim ip nowMs).2)
           else
            ([GEvent.rateCheck, GEvent.reply429], (RateLimiter.check lim ip nowMs).2)) := by
      simp [handleToolsCall, hfree]
    refine ⟨?_, ?_, ?_⟩
    · rw [hstep]; split <;> simp
    · intro hden
      rw [hstep, hden]
      simp
    · intro hall
      rw [hstep, hall]
      simp

/-- Witness for C2 at concrete inputs: a pro key bypassing a limiter whose
record is exhausted, and a keyless request against the same exhausted record
being denied with the 429 reply. -/
theorem claim_C2_witness :
    handleToolsCall [("k1", ⟨"a@b.c", "pro", true⟩)]
        ⟨[("1.2.3.4", ⟨10, 86400⟩)], 0⟩ (some "k1") "1.2.3.4" 1000 =
      ([GEvent.dispatch], ⟨[("1.2.3.4", ⟨10, 86400⟩)], 0⟩) ∧
    handleToolsCall [("k1", ⟨"a@b.c", "pro", true⟩)]
        ⟨[("1.2.3.4", ⟨10, 86400⟩)], 0⟩ none "1.2.3.4" 1000 =
      ([GEvent.rateCheck, GEvent.reply429],
       (RateLimiter.check ⟨[("1.2.3.4", ⟨10, 86400⟩)], 0⟩ "1.2.3.4" 1000).2) := by
  constructor
  · exact ((claim_C2 [("k1", ⟨"a@b.c", "pro", true⟩)]
      ⟨[("1.2.3.4", ⟨10, 86400⟩)], 0⟩ (some "k1") "1.2.3.4" 1000).1
      "k1" "a@b.c" rfl (by decide)).1
  · exact (((claim_C2 [("k1", ⟨"a@b.c", "pro", true⟩)]
      ⟨[("1.2.3.4", ⟨10, 86400⟩)], 0⟩ none "1.2.3.4" 1000).2
      (by decide)).2.1
      (by norm_num [RateLimiter.check, lookupA, FREE_TIER_DAILY_LIMIT])).1

/-- Helper: a key outside the key list is not found. -/
theorem lookupA_none_of_not_mem {v : Type} (m : List (String × v)) (ip : String)
    (h : ip ∉ m.map Prod.fst) : lookupA m ip = none := by
  induction m with
  | nil => rfl
  | cons hd t ih =>
      obtain ⟨k, x⟩ := hd
      simp only [List.map_cons, List.mem_cons] at h
      push_neg at h
      simp [lookupA, Ne.symm h.1, ih h.2]

/-- Helper: filtering cannot make an absent key present. -/
theorem lookupA_filter_none {v : Type} (p : String × v → Bool)
    (m : List (String × v)) (ip : String) (h : lookupA m ip = none) :
    lookupA (m.filter p) ip = none := by
  induction m with
  | nil => rfl
  | cons hd t ih =>
      obtain ⟨k, x⟩ := hd
      by_cases hk : k = ip
      · subst hk; simp [lookupA] at h
      · simp only [lookupA, if_neg hk] at h
        by_cases hp : p (k, x) <;> simp [List.filter, hp, lookupA, hk, ih h]

/-- Helper: lookup after the expiry sweep, on a well-formed (duplicate-free)
client table. -/
theorem lookupA_cleanup (now : ℚ) (m : List (String × RateRecord)) (ip : String)
    (hnd : (m.map Prod.fst).Nodup) :
    lookupA (RateLimiter.cleanup now m) ip =
      match lookupA m ip with
      | none => none
      | some e => if now < e.reset_at then some e else none := by
  induction m with
  | nil => rfl
  | cons hd t ih =>
      obtain ⟨k, e⟩ := hd
      simp only [List.map_cons, List.nodup_cons] at hnd
      by_cases hk : k = ip
      · subst hk
        by_cases he : now < e.reset_at
        · simp [RateLimiter.cleanup, List.filter, he, lookupA]
        · have ht : lookupA t k = none :=
            lookupA_none_of_not_mem t k hnd.1
          simp [RateLimiter.cleanup, List.filter, he, lookupA,
            lookupA_filter_none _ t k ht]
      · by_cases he : now < e.reset_at <;>
          simp [RateLimiter.cleanup, List.filter, he, lookupA, hk, ih hnd.2] <;>
          simp [RateLimiter.cleanup] at ih <;> exact ih hnd.2

/-- Helper: lookup after an in-place set finds the new record. -/
theorem lookupA_setA_self {v : Type} (m : List (String × v)) (k : String) (x : v) :
    lookupA (setA m k x) k = some x := by
  induction m with
  | nil => simp [setA, lookupA]
  | cons hd t ih =>
      obtain ⟨k', y⟩ := hd
      by_cases hk : k' = k <;> simp [setA, lookupA, hk, ih]

/-- Helper: keys after an in-place set. -/
theorem setA_keys {v : Type} (m : List (String × v)) (k : String) (x : v) :
    (setA m k x).map Prod.fst =
      if k ∈ m.map Prod.fst then m.map Prod.fst else m.map Prod.fst ++ [k] := by
  induction m with
  | nil => simp [setA]
  | cons hd t ih =>
      obtain ⟨k', y⟩ := hd
      by_cases hk : k' = k
      · subst hk; simp [setA]
      · simp only [setA, if_neg hk, List.map_cons, ih, List.mem_cons]
        by_cases hm : k ∈ t.map Prod.fst <;> simp [hm, Ne.symm hk]

/-- Helper: an in-place set keeps the key list duplicate-free. -/
theorem setA_nodup {v : Type} (m : List (String × v)) (k : String) (x : v)
    (hnd : (m.map Prod.fst).Nodup) : ((setA m k x).map Prod.fst).Nodup := by
  rw [setA_keys]
  by_cases hm : k ∈ m.map Prod.fst
  · simpa [hm]
  · simpa [hm] using List.Nodup.append hnd (List.nodup_singleton k)
      (by simpa using hm)

/-- Helper: the expiry sweep keeps the key list duplicate-free. -/
theorem cleanup_nodup (now : ℚ) (m : List (String × RateRecord))
    (hnd : (m.map Prod.fst).Nodup) :
    ((RateLimiter.cleanup now m).map Prod.fst).Nodup :=
  ((List.filter_sublist m).map Prod.fst).nodup hnd

/-- Helper: RateLimiter.check keeps the key list duplicate-free. -/
theorem check_nodup (s : RLState) (ip : String) (nowMs : ℚ)
    (hnd : (s.clients.map Prod.fst).Nodup) :
    (((RateLimiter.check s ip nowMs).2.clients).map Prod.fst).Nodup := by
  unfold RateLimiter.check
  have h1 : (((if nowMs - s.lastCleanup > 3600000 then
      RateLimiter.cleanup (nowMs / 1000) s.clients else s.clients)).map
      Prod.fst).Nodup := by
    split
    · exact cleanup_nodup _ _ hnd
    · exact hnd
  simp only []
  split
  · exact setA_nodup _ _ _ h1
  · split
    · exact setA_nodup _ _ _ h1
    · split
      · exact h1
      · exact setA_nodup _ _ _ h1

/-- Helper: on a duplicate-free table the outcome of check is determined by
the pre-sweep lookup: the lazy expiry sweep never changes the admission
decision, because a record it removes is exactly one the expiry branch would
reset anyway. -/
theorem check_cases (s : RLState) (ip : String) (nowMs : ℚ)
    (hnd : (s.clients.map Prod.fst).Nodup) :
    RateLimiter.check s ip nowMs =
      (let now : ℚ := nowMs / 1000
       let clients :=
         if nowMs - s.lastCleanup > 3600000 then RateLimiter.cleanup now s.clients
         else s.clients
       let lastCleanup :=
         if nowMs - s.lastCleanup > 3600000 then nowMs else s.lastCleanup
       match lookupA s.clients ip with
       | none =>
           (⟨true, FREE_TIER_DAILY_LIMIT - 1⟩,
            ⟨setA clients ip ⟨1, now + 86400⟩, lastCleanup⟩)
       | some entry =>
           if now ≥ entry.reset_at then
             (⟨true, FREE_TIER_DAILY_LIMIT - 1⟩,
              ⟨setA clients ip ⟨1, now + 86400⟩, lastCleanup⟩)
           else if entry.count ≥ FREE_TIER_DAILY_LIMIT then
             (⟨false, 0⟩, ⟨clients, lastCleanup⟩)
           else
             (⟨true, FREE_TIER_DAILY_LIMIT - (entry.count + 1)⟩,
              ⟨setA clients ip ⟨entry.count + 1, entry.reset_at⟩, lastCleanup⟩)) := by
  unfold RateLimiter.check
  by_cases hcl : nowMs - s.lastCleanup > 3600000
  · simp only [if_pos hcl, lookupA_cleanup (nowMs / 1000) s.clients ip hnd]
    rcases hls : lookupA s.clients ip with _ | e
    · rfl
    · by_cases he : nowMs / 1000 < e.reset_at
      · simp [he, not_le.mpr he]
      · simp [he, ge_iff_le, le_of_not_lt he]
  · simp only [if_neg hcl]

/-- Helper: new-window behavior of check (no record, or window elapsed). -/
theorem check_new_window (s : RLState) (ip : String) (nowMs : ℚ)
    (hnd : (s.clients.map Prod.fst).Nodup)
    (h : lookupA s.clients ip = none ∨
      ∃ e, lookupA s.clients ip = some e ∧ e.reset_at ≤ nowMs / 1000) :
    (RateLimiter.check s ip nowMs).1 = ⟨true, FREE_TIER_DAILY_LIMIT - 1⟩ ∧
    lookupA (RateLimiter.check s ip nowMs).2.clients ip =
      some ⟨1, nowMs / 1000 + 86400⟩ := by
  rw [check_cases s ip nowMs hnd]
  rcases h with hnone | ⟨e, he, hexp⟩
  · simp [hnone, lookupA_setA_self]
  · simp [he, ge_iff_le, hexp, lookupA_setA_self]

/-- Helper: in-window increment behavior of check. -/
theorem check_increment (s : RLState) (ip : String) (nowMs : ℚ)
    (hnd : (s.clients.map Prod.fst).Nodup) (e : RateRecord)
    (he : lookupA s.clients ip = some e)
    (hwin : nowMs / 1000 < e.reset_at)
    (hcnt : e.count < FREE_TIER_DAILY_LIMIT) :
    (RateLimiter.check s ip nowMs).1 =
      ⟨true, FREE_TIER_DAILY_LIMIT - (e.count + 1)⟩ ∧
    lookupA (RateLimiter.check s ip nowMs).2.clients ip =
      some ⟨e.count + 1, e.reset_at⟩ := by
  rw [check_cases s ip nowMs hnd]
  simp [he, ge_iff_le, not_le.mpr hwin, not_le.mpr hcnt, lookupA_setA_self]

/-- Helper: in-window denial behavior of check. -/
theorem check_deny (s : RLState) (ip : String) (nowMs : ℚ)
    (hnd : (s.clients.map Prod.fst).Nodup) (e : RateRecord)
    (he : lookupA s.clients ip = some e)
    (hwin : nowMs / 1000 < e.reset_at)
    (hcnt : FREE_TIER_DAILY_LIMIT ≤ e.count) :
    (RateLimiter.check s ip nowMs).1 = ⟨false, 0⟩ ∧
    lookupA (RateLimiter.check s ip nowMs).2.clients ip = some e := by
  rw [check_cases s ip nowMs hnd]
  by_cases hcl : nowMs - s.lastCleanup > 3600000
  · simp [he, ge_iff_le, not_le.mpr hwin, hcnt, hcl,
      lookupA_cleanup (nowMs / 1000) s.clients ip hnd, hwin]
  · simp [he, ge_iff_le, not_le.mpr hwin, hcnt, hcl]

/-- Helper: a run of in-window requests on an existing record admits each
one and counts them all, leaving the window anchor unchanged. -/
theorem runChecks_window (ip : String) (R : ℚ) :
    ∀ (ts : List ℚ) (s : RLState) (c : Nat),
      (s.clients.map Prod.fst).Nodup →
      lookupA s.clients ip = some ⟨c, R⟩ →
      c + ts.length ≤ FREE_TIER_DAILY_LIMIT →
      (∀ t ∈ ts, t / 1000 < R) →
      ((RateLimiter.runChecks s ip ts).1.all (fun r => r.allowed)) = true ∧
      lookupA (RateLimiter.runChecks s ip ts).2.clients ip =
        some ⟨c + ts.length, R⟩ ∧
      ((RateLimiter.runChecks s ip ts).2.clients.map Prod.fst).Nodup
  | [], s, c, hnd, hl, _, _ => by
      simpa [RateLimiter.runChecks] using ⟨hl, hnd⟩
  | t :: ts, s, c, hnd, hl, hc, hts => by
      have hcnt : c < FREE_TIER_DAILY_LIMIT := by
        have := hc; simp at this ⊢; omega
      have hstep := check_increment s ip t hnd ⟨c, R⟩ hl
        (hts t (by simp)) hcnt
      have hnd' := check_nodup s ip t hnd
      have hrec := runChecks_window ip R ts (RateLimiter.check s ip t).2 (c + 1)
        hnd' hstep.2 (by simp at hc ⊢; omega)
        (fun u hu => hts u (by simp [hu]))
      refine ⟨?_, ?_, ?_⟩
      · simp [RateLimiter.runChecks, hstep.1, hrec.1]
      · simpa [RateLimiter.runChecks, Nat.add_assoc, Nat.add_comm 1 ts.length]
          using hrec.2.1
      · simpa [RateLimiter.runChecks] using hrec.2.2

/-- C1: with the free-tier quota of 10, RateLimiter.check admits and opens a
fresh 24-hour window with count 1 and remaining 9 when no record exists or
the current time has reached the reset time; admits and increments when a
record is within its window below the quota; and over a run anchored at a
first request, the ten requests within the window are all admitted, the
eleventh within 24 hours is denied with zero remaining, while a request at
or past 24 hours after the first is admitted again with the count reset to
1.  The duplicate-free key hypothesis is the Map invariant of the client
table. -/
theorem claim_C1 (s : RLState) (ip : String)
    (hnd : (s.clients.map Prod.fst).Nodup) :
    (∀ nowMs : ℚ,
      (lookupA s.clients ip = none ∨
        ∃ e, lookupA s.clients ip = some e ∧ e.reset_at ≤ nowMs / 1000) →
      (RateLimiter.check s ip nowMs).1 = ⟨true, FREE_TIER_DAILY_LIMIT - 1⟩ ∧
      lookupA (RateLimiter.check s ip nowMs).2.clients ip =
        some ⟨1, nowMs / 1000 + 86400⟩) ∧
    (∀ (nowMs : ℚ) (e : RateRecord), lookupA s.clients ip = some e →
      nowMs / 1000 < e.reset_at → e.count < FREE_TIER_DAILY_LIMIT →
      (RateLimiter.check s ip nowMs).1 =
        ⟨true, FREE_TIER_DAILY_LIMIT - (e.count + 1)⟩ ∧
      lookupA (RateLimiter.check s ip nowMs).2.clients ip =
        some ⟨e.count + 1, e.reset_at⟩) ∧
    (∀ (nowMs : ℚ) (e : RateRecord), lookupA s.clients ip = some e →
      nowMs / 1000 < e.reset_at → FREE_TIER_DAILY_LIMIT ≤ e.count →
      (RateLimiter.check s ip nowMs).1 = ⟨false, 0⟩) ∧
    (∀ (m0 t11 : ℚ) (rest : List ℚ),
      lookupA s.clients ip = none →
      rest.length + 1 = FREE_TIER_DAILY_LIMIT →
      (∀ t ∈ m0 :: rest, t / 1000 < m0 / 1000 + 86400) →
      ((RateLimiter.runChecks s ip (m0 :: rest)).1.all (fun r => r.allowed)) = true ∧
      (t11 / 1000 < m0 / 1000 + 86400 →
        (RateLimiter.check (RateLimiter.runChecks s ip (m0 :: rest)).2 ip t11).1 =
          ⟨false, 0⟩) ∧
      (m0 / 1000 + 86400 ≤ t11 / 1000 →
        (RateLimiter.check (RateLimiter.runChecks s ip (m0 :: rest)).2 ip t11).1 =
          ⟨true, FREE_TIER_DAILY_LIMIT - 1⟩ ∧
        lookupA (RateLimiter.check (RateLimiter.runChecks s ip
            (m0 :: rest)).2 ip t11).2.clients ip =
          some ⟨1, t11 / 1000 + 86400⟩)) := by
  refine ⟨fun nowMs h => check_new_window s ip nowMs hnd h,
    fun nowMs e he hwin hcnt => check_increment s ip nowMs hnd e he hwin hcnt,
    fun nowMs e he hwin hcnt => (check_deny s ip nowMs hnd e he hwin hcnt).1,
    fun m0 t11 rest hnone hlen hts => ?_⟩
  have hstep := check_new_window s ip m0 hnd (Or.inl hnone)
  have hnd1 := check_nodup s ip m0 hnd
  have hrun := runChecks_window ip (m0 / 1000 + 86400) rest
    (RateLimiter.check s ip m0).2 1 hnd1 hstep.2
    (by omega) (fun u hu => hts u (by simp [hu]))
  have hfin : lookupA (RateLimiter.runChecks
      (RateLimiter.check s ip m0).2 ip rest).2.clients ip =
      some ⟨FREE_TIER_DAILY_LIMIT, m0 / 1000 + 86400⟩ := by
    have := hrun.2.1
    rwa [show 1 + rest.length = FREE_TIER_DAILY_LIMIT by omega] at this
  refine ⟨?_, ?_, ?_⟩
  · simp [RateLimiter.runChecks, hstep.1, hrun.1]
  · intro h11
    exact (check_deny _ ip t11 (by simpa [RateLimiter.runChecks] using hrun.2.2)
      _ (by simpa [RateLimiter.runChecks] using hfin) h11 (le_refl _)).1
  · intro h11
    exact check_new_window _ ip t11
      (by simpa [RateLimiter.runChecks] using hrun.2.2)
      (Or.inr ⟨_, (by simpa [RateLimiter.runChecks] using hfin), h11⟩)

/-- Witness for C1: a fresh client admitted with nine remaining, ten
requests within a day all admitted, the eleventh denied with zero remaining,
and a request a full day later admitted again with a reset window. -/
theorem claim_C1_witness :
    (RateLimiter.check ⟨[], 0⟩ "c" 0).1 = ⟨true, FREE_TIER_DAILY_LIMIT - 1⟩ ∧
    ((RateLimiter.runChecks ⟨[], 0⟩ "c"
      [0, 1000, 2000, 3000, 4000, 5000, 6000, 7000, 8000, 9000]).1.all
        (fun r => r.allowed)) = true ∧
    (RateLimiter.check (RateLimiter.runChecks ⟨[], 0⟩ "c"
      [0, 1000, 2000, 3000, 4000, 5000, 6000, 7000, 8000, 9000]).2 "c"
      10000).1 = ⟨false, 0⟩ ∧
    (RateLimiter.check (RateLimiter.runChecks ⟨[], 0⟩ "c"
      [0, 1000, 2000, 3000, 4000, 5000, 6000, 7000, 8000, 9000]).2 "c"
      86400000).1 = ⟨true, FREE_TIER_DAILY_LIMIT - 1⟩ := by
  have h := claim_C1 ⟨[], 0⟩ "c" (by simp)
  have hD := h.2.2.2 0 10000
    [1000, 2000, 3000, 4000, 5000, 6000, 7000, 8000, 9000] rfl
    (by simp [FREE_TIER_DAILY_LIMIT])
    (by intro t ht; fin_cases ht <;> norm_num)
  have hD2 := h.2.2.2 0 86400000
    [1000, 2000, 3000, 4000, 5000, 6000, 7000, 8000, 9000] rfl
    (by simp [FREE_TIER_DAILY_LIMIT])
    (by intro t ht; fin_cases ht <;> norm_num)
  exact ⟨(h.1 0 (Or.inl rfl)).1, hD.1, hD.2.1 (by norm_num),
    (hD2.2.2 (by norm_num)).1⟩

/-- Helper: string append is associative. -/
theorem strAppend_assoc (a b c : String) : a ++ b ++ c = a ++ (b ++ c) := by
  rcases a with ⟨la⟩; rcases b with ⟨lb⟩; rcases c with ⟨lc⟩
  show String.mk ((la ++ lb) ++ lc) = String.mk (la ++ (lb ++ lc))
  rw [List.append_assoc]

/-- C3 counterexample: on a project whose only entry is README.md, the
high-risk transparency item also passes (the source grades transparency as
TRANSPARENCY.md existing or the README existing), so the checklist has two
true items and the score is 2/6, not the claimed 1/6. -/
theorem claim_C3_counterexample :
    (checkCompliance ⟨fun p => p == "/proj/README.md", fun _ => ""⟩ []
      "/proj" "high").compliance_score = some "2/6" ∧
    lookupA ((checkCompliance ⟨fun p => p == "/proj/README.md", fun _ => ""⟩ []
      "/proj" "high").compliance_status.getD []) "transparency" = some true ∧
    (some "2/6" ≠ some "1/6") := by
  refine ⟨by decide, by decide, by decide⟩

/-- C3 amended: for every project directory whose only entry is README.md,
checkCompliance with the high risk category returns a checklist in which
technical_documentation and transparency are true (the README satisfies the
transparency check as well) and every other high-risk item is false, with a
compliance score of 2/6. -/
theorem claim_C3_amended (fsys : FS) (entries : List FSEntry)
    (projectPath : String)
    (h : ∀ f, fsys.exists? (projectPath ++ "/" ++ f) = (f == "README.md")) :
    (checkCompliance fsys entries projectPath "high").compliance_status =
      some [("technical_documentation", true), ("risk_management", false),
            ("transparency", true), ("data_governance", false),
            ("human_oversight", false), ("robustness", false)] ∧
    (checkCompliance fsys entries projectPath "high").compliance_score =
      some "2/6" := by
  have hdocs : ∀ f, fsys.exists? (projectPath ++ "/" ++ "docs" ++ "/" ++ f) =
      (("docs" ++ ("/" ++ f)) == "README.md") := by
    intro f
    rw [strAppend_assoc, strAppend_assoc]
    exact h _
  refine ⟨?_, ?_⟩
  · simp [checkCompliance, mkComplianceOut, RISK_CATEGORIES, lookupA,
      fileExists, pathJoin, hdocs, h]
  · simp [checkCompliance, mkComplianceOut, RISK_CATEGORIES, lookupA,
      fileExists, pathJoin, hdocs, h]
    decide

/-- Witness for the amended C3 at a concrete single-README project. -/
theorem claim_C3_amended_witness :
    (checkCompliance ⟨fun p => p == "/p/README.md", fun _ => ""⟩ []
      "/p" "high").compliance_status =
      some [("technical_documentation", true), ("risk_management", false),
            ("transparency", true), ("data_governance", false),
            ("human_oversight", false), ("robustness", false)] ∧
    (checkCompliance ⟨fun p => p == "/p/README.md", fun _ => ""⟩ []
      "/p" "high").compliance_score = some "2/6" :=
  claim_C3_amended ⟨fun p => p == "/p/README.md", fun _ => ""⟩ [] "/p"
    (fun f => by
      rcases f with ⟨l⟩
      show (String.mk ('/' :: 'p' :: '/' :: l) == "/p/README.md") =
        (String.mk l == "README.md")
      by_cases hf : l = "README.md".data
      · subst hf; decide
      · have h1 : (String.mk ('/' :: 'p' :: '/' :: l) == "/p/README.md") = false := by
          refine beq_eq_false_iff_ne.mpr (fun hcon => hf ?_)
          simpa using congrArg String.data hcon
        have h2 : (String.mk l == "README.md") = false := by
          refine beq_eq_false_iff_ne.mpr (fun hcon => hf ?_)
          simpa using congrArg String.data hcon
        rw [h1, h2])

/-- Helper: one-decimal rounding of a percentage, the form in which the
specification states the score. -/
def roundTo1dp (q : ℚ) : ℚ := (jsRound (q * 10) : ℚ) / 10

/-- Helper: the checklist carried by the response record. -/
theorem mkComplianceOut_status (c : String) (i : String × List String)
    (st : List (String × Bool)) :
    (mkComplianceOut c i st).compliance_status = some st := rfl

/-- Helper: the percentage field of the response record is the one-decimal
rounding of passed over total times 100, and 0 on an empty checklist. -/
theorem mkComplianceOut_percentage (c : String) (i : String × List String)
    (st : List (String × Bool)) :
    (mkComplianceOut c i st).compliance_percentage =
      some (if 0 < st.length then
        roundTo1dp (((st.filter (fun e => e.2)).length : ℚ) / (st.length : ℚ) * 100)
      else 0) := by
  have h : ((st.filter (fun e => e.2)).length : ℚ) * 1000 / (st.length : ℚ) =
      ((st.filter (fun e => e.2)).length : ℚ) / (st.length : ℚ) * 100 * 10 := by
    ring
  simp only [mkComplianceOut, roundTo1dp, h]

/-- Helper: on a valid category, checkCompliance builds its response from
some checklist through mkComplianceOut. -/
theorem checkCompliance_shape (fsys : FS) (entries : List FSEntry)
    (projectPath cat : String) (info : String × List String)
    (hlook : lookupA RISK_CATEGORIES cat = some info) :
    ∃ st, checkCompliance fsys entries projectPath cat =
      mkComplianceOut cat info st := by
  unfold checkCompliance
  rw [hlook]
  exact ⟨_, rfl⟩

/-- C8: for every valid risk category the checklist result satisfies passed
at most total (passed is a natural number, so nonnegativity holds by type),
the percentage field equals passed over total times 100 rounded to one
decimal place, and the category with an empty checklist (unacceptable)
yields a percentage of exactly 0, a plain rational, not an error. -/
theorem claim_C8 (fsys : FS) (entries : List FSEntry)
    (projectPath cat : String)
    (hcat : cat ∈ ["unacceptable", "high", "limited", "minimal"]) :
    (∃ st, (checkCompliance fsys entries projectPath cat).compliance_status =
      some st) ∧
    (∀ st, (checkCompliance fsys entries projectPath cat).compliance_status =
        some st →
      (st.filter (fun e => e.2)).length ≤ st.length ∧
      (checkCompliance fsys entries projectPath cat).compliance_percentage =
        some (if 0 < st.length then
          roundTo1dp (((st.filter (fun e => e.2)).length : ℚ) /
            (st.length : ℚ) * 100)
        else 0)) ∧
    (cat = "unacceptable" →
      (checkCompliance fsys entries projectPath cat).compliance_status =
        some [] ∧
      (checkCompliance fsys entries projectPath cat).compliance_percentage =
        some 0) := by
  have hmain : ∀ (info : String × List String),
      lookupA RISK_CATEGORIES cat = some info →
      (∃ st, (checkCompliance fsys entries projectPath cat).compliance_status =
        some st) ∧
      (∀ st, (checkCompliance fsys entries projectPath cat).compliance_status =
          some st →
        (st.filter (fun e => e.2)).length ≤ st.length ∧
        (checkCompliance fsys entries projectPath cat).compliance_percentage =
          some (if 0 < st.length then
            roundTo1dp (((st.filter (fun e => e.2)).length : ℚ) /
              (st.length : ℚ) * 100)
          else 0)) := by
    intro info hlook
    obtain ⟨st0, hred⟩ :=
      checkCompliance_shape fsys entries projectPath cat info hlook
    rw [hred]
    refine ⟨⟨st0, mkComplianceOut_status _ _ _⟩, fun st hst => ?_⟩
    rw [mkComplianceOut_status] at hst
    obtain rfl := Option.some.inj hst
    exact ⟨List.length_filter_le _ _, mkComplianceOut_percentage _ _ _⟩
  simp only [List.mem_cons, List.not_mem_nil, or_false] at hcat
  rcases hcat with rfl | rfl | rfl | rfl
  · have h0 := hmain _ rfl
    refine ⟨h0.1, h0.2, fun _ => ?_⟩
    have hred : checkCompliance fsys entries projectPath "unacceptable" =
        mkComplianceOut "unacceptable"
          ("Prohibited systems (behavioral manipulation, social scoring, mass biometric surveillance)",
           ["Prohibited system - Do not deploy"]) [] := by
      simp [checkCompliance, RISK_CATEGORIES, lookupA]
    rw [hred, mkComplianceOut_status, mkComplianceOut_percentage]
    simp
  · exact ⟨(hmain _ rfl).1,
      (hmain _ rfl).2, fun hc => absurd hc (by decide)⟩
  · exact ⟨(hmain _ rfl).1,
      (hmain _ rfl).2, fun hc => absurd hc (by decide)⟩
  · exact ⟨(hmain _ rfl).1,
      (hmain _ rfl).2, fun hc => absurd hc (by decide)⟩

/-- Witness for C8 at concrete inputs: the empty-checklist category on an
empty project. -/
theorem claim_C8_witness :
    (checkCompliance ⟨fun _ => false, fun _ => ""⟩ [] "/p"
      "unacceptable").compliance_status = some [] ∧
    (checkCompliance ⟨fun _ => false, fun _ => ""⟩ [] "/p"
      "unacceptable").compliance_percentage = some 0 :=
  (claim_C8 ⟨fun _ => false, fun _ => ""⟩ [] "/p" "unacceptable"
    (by simp)).2.2 rfl

/-- C4, evaluation at the failing input: the scan operations always satisfy
the validated-traversal discipline (validatePath succeeds before any walk),
but checkCompliance with the limited risk category walks the raw project
path without any validatePath step, so the discipline fails there even for
the denylisted root /etc, which validatePath would reject. -/
theorem claim_C4_bug :
    (∀ (resolve : String → Option String) (fsys : FS) (p : String),
      walksValidated (scanProjectEvents resolve fsys p) [] = true) ∧
    (∀ (resolve : String → Option String) (fsys : FS) (p : String),
      walksValidated (gdprScanEvents resolve fsys p) [] = true) ∧
    checkComplianceEvents "/etc" "limited" = [OpEvent.walk "/etc"] ∧
    walksValidated (checkComplianceEvents "/etc" "limited") [] = false ∧
    (validatePath (fun p => some p) "/etc").safe = false := by
  refine ⟨?_, ?_, by decide, by decide, by decide⟩
  · intro resolve fsys p
    by_cases hs : (validatePath resolve p).safe
    · by_cases he : fsys.exists? p <;>
        simp [scanProjectEvents, hs, he, walksValidated]
    · rw [Bool.not_eq_true] at hs
      simp [scanProjectEvents, hs, walksValidated]
  · intro resolve fsys p
    by_cases hs : (validatePath resolve p).safe
    · by_cases he : fsys.exists? p <;>
        simp [gdprScanEvents, hs, he, walksValidated]
    · rw [Bool.not_eq_true] at hs
      simp [gdprScanEvents, hs, walksValidated]

/-- C9 counterexample: a scan_project error response also carries a
detected_models field (the empty mapping), so an error value is not a value
with a single error field. -/
theorem claim_C9_counterexample :
    ((scanProject [] (fun _ => none) ⟨fun _ => false, fun _ => ""⟩ []
      "/x").error).isSome = true ∧
    (scanProject [] (fun _ => none) ⟨fun _ => false, fun _ => ""⟩ []
      "/x").detected_models = some [] := by
  exact ⟨by decide, by decide⟩

/-- C9 amended: every tool handler returns either results or an error,
never mingled, with one exception forced by the source: the error values of
scan_project and gdpr_scan_project additionally carry an empty
detected_models or detected_patterns mapping.  All other handlers return a
bare error value on failure, every handler returns no error field on
success, and callers can still branch on the presence of error alone. -/
theorem claim_C9_amended :
    (∀ (pats : PatTable) (resolve : String → Option String) (fsys : FS)
        (entries : List FSEntry) (p : String),
      ((scanProject pats resolve fsys entries p).error.isSome = true →
        (scanProject pats resolve fsys entries p).files_scanned = none ∧
        (scanProject pats resolve fsys entries p).ai_files = none ∧
        (scanProject pats resolve fsys entries p).detected_models = some []) ∧
      ((scanProject pats resolve fsys entries p).error = none →
        (scanProject pats resolve fsys entries p).files_scanned.isSome = true ∧
        (scanProject pats resolve fsys entries p).ai_files.isSome = true ∧
        (scanProject pats resolve fsys entries p).detected_models.isSome = true)) ∧
    (∀ (fsys : FS) (entries : List FSEntry) (p cat : String),
      ((checkCompliance fsys entries p cat).error.isSome = true →
        (checkCompliance fsys entries p cat).risk_category = none ∧
        (checkCompliance fsys entries p cat).description = none ∧
        (checkCompliance fsys entries p cat).requirements = none ∧
        (checkCompliance fsys entries p cat).compliance_status = none ∧
        (checkCompliance fsys entries p cat).compliance_score = none ∧
        (checkCompliance fsys entries p cat).compliance_percentage = none) ∧
      ((checkCompliance fsys entries p cat).error = none →
        (checkCompliance fsys entries p cat).compliance_status.isSome = true ∧
        (checkCompliance fsys entries p cat).compliance_score.isSome = true ∧
        (checkCompliance fsys entries p cat).compliance_percentage.isSome = true)) ∧
    (∀ (codePats configPats : PatTable) (resolve : String → Option String)
        (fsys : FS) (entries : List FSEntry) (p : String),
      ((gdprScanProject codePats configPats resolve fsys entries p).error.isSome = true →
        (gdprScanProject codePats configPats resolve fsys entries p).files_scanned = none ∧
        (gdprScanProject codePats configPats resolve fsys entries p).flagged_files = none ∧
        (gdprScanProject codePats configPats resolve fsys entries p).processing_summary = none ∧
        (gdprScanProject codePats configPats resolve fsys entries p).detected_patterns = some []) ∧
      ((gdprScanProject codePats configPats resolve fsys entries p).error = none →
        (gdprScanProject codePats configPats resolve fsys entries p).files_scanned.isSome = true ∧
        (gdprScanProject codePats configPats resolve fsys entries p).flagged_files.isSome = true ∧
        (gdprScanProject codePats configPats resolve fsys entries p).detected_patterns.isSome = true ∧
        (gdprScanProject codePats configPats resolve fsys entries p).processing_summary.isSome = true)) ∧
    (∀ (codePats configPats : PatTable) (resolve : String → Option String)
        (fsys : FS) (entries : List FSEntry) (p role : String),
      ((gdprCheckCompliance codePats configPats resolve fsys entries p role).error.isSome = true →
        (gdprCheckCompliance codePats configPats resolve fsys entries p role).regulation = none ∧
        (gdprCheckCompliance codePats configPats resolve fsys entries p role).compliance_status = none ∧
        (gdprCheckCompliance codePats configPats resolve fsys entries p role).compliance_score = none ∧
        (gdprCheckCompliance codePats configPats resolve fsys entries p role).compliance_percentage = none ∧
        (gdprCheckCompliance codePats configPats resolve fsys entries p role).quality_notes = none ∧
        (gdprCheckCompliance codePats configPats resolve fsys entries p role).scan_summary = none) ∧
      ((gdprCheckCompliance codePats configPats resolve fsys entries p role).error = none →
        (gdprCheckCompliance codePats configPats resolve fsys entries p role).compliance_status.isSome = true ∧
        (gdprCheckCompliance codePats configPats resolve fsys entries p role).compliance_score.isSome = true ∧
        (gdprCheckCompliance codePats configPats resolve fsys entries p role).compliance_percentage.isSome = true)) ∧
    (∀ (pats : PatTable) (resolve : String → Option String) (fsys : FS)
        (entries : List FSEntry) (p cat d : String),
      ((generateReport pats resolve fsys entries p cat d).error.isSome = true →
        (generateReport pats resolve fsys entries p cat d).report_date = none ∧
        (generateReport pats resolve fsys entries p cat d).project_path = none ∧
        (generateReport pats resolve fsys entries p cat d).scan_summary = none ∧
        (generateReport pats resolve fsys entries p cat d).compliance_summary = none ∧
        (generateReport pats resolve fsys entries p cat d).detailed_findings = none ∧
        (generateReport pats resolve fsys entries p cat d).recommendations = none) ∧
      ((generateReport pats resolve fsys entries p cat d).error = none →
        (generateReport pats resolve fsys entries p cat d).scan_summary.isSome = true ∧
        (generateReport pats resolve fsys entries p cat d).compliance_summary.isSome = true ∧
        (generateReport pats resolve fsys entries p cat d).recommendations.isSome = true)) ∧
    (∀ (codePats configPats : PatTable) (resolve : String → Option String)
        (fsys : FS) (entries : List FSEntry) (p role d : String),
      ((gdprGenerateReport codePats configPats resolve fsys entries p role d).error.isSome = true →
        (gdprGenerateReport codePats configPats resolve fsys entries p role d).scan_summary = none ∧
        (gdprGenerateReport codePats configPats resolve fsys entries p role d).processing_summary = none ∧
        (gdprGenerateReport codePats configPats resolve fsys entries p role d).compliance_summary = none ∧
        (gdprGenerateReport codePats configPats resolve fsys entries p role d).recommendations = none) ∧
      ((gdprGenerateReport codePats configPats resolve fsys entries p role d).error = none →
        (gdprGenerateReport codePats configPats resolve fsys entries p role d).scan_summary.isSome = true ∧
        (gdprGenerateReport codePats configPats resolve fsys entries p role d).compliance_summary.isSome = true ∧
        (gdprGenerateReport codePats configPats resolve fsys entries p role d).recommendations.isSome = true)) ∧
    (∀ (tmpls : List (String × TemplateEntry)) (role : String),
      ((gdprGenerateTemplates tmpls role).error.isSome = true →
        (gdprGenerateTemplates tmpls role).regulation = none ∧
        (gdprGenerateTemplates tmpls role).templates_count = none ∧
        (gdprGenerateTemplates tmpls role).templates = none ∧
        (gdprGenerateTemplates tmpls role).usage = none) ∧
      ((gdprGenerateTemplates tmpls role).error = none →
        (gdprGenerateTemplates tmpls role).templates_count.isSome = true ∧
        (gdprGenerateTemplates tmpls role).templates.isSome = true ∧
        (gdprGenerateTemplates tmpls role).usage.isSome = true)) := by
  refine ⟨?_, ?_, ?_, ?_, ?_, ?_, ?_⟩
  · intro pats resolve fsys entries p
    by_cases hv : (validatePath resolve p).safe <;>
      by_cases he : fsys.exists? p <;>
        simp [scanProject, hv, he]
  · intro fsys entries p cat
    unfold checkCompliance
    rcases lookupA RISK_CATEGORIES cat with _ | info
    · simp
    · simp [mkComplianceOut]
  · intro codePats configPats resolve fsys entries p
    by_cases hv : (validatePath resolve p).safe <;>
      by_cases he : fsys.exists? p <;>
        simp [gdprScanProject, hv, he]
  · intro codePats configPats resolve fsys entries p role
    unfold gdprCheckCompliance
    rcases lookupA GDPR_REQUIREMENTS role with _ | info
    · simp
    · simp
  · intro pats resolve fsys entries p cat d
    rcases hscan : (scanProject pats resolve fsys entries p).error with _ | e
    · rcases hcomp : (checkCompliance fsys entries p cat).error with _ | e2 <;>
        simp [generateReport, hscan, hcomp]
    · simp [generateReport, hscan]
  · intro codePats configPats resolve fsys entries p role d
    rcases hscan : (gdprScanProject codePats configPats resolve fsys
      entries p).error with _ | e
    · rcases hcomp : (gdprCheckCompliance codePats configPats resolve fsys
        entries p role).error with _ | e2 <;>
        simp [gdprGenerateReport, hscan, hcomp]
    · simp [gdprGenerateReport, hscan]
  · intro tmpls role
    unfold gdprGenerateTemplates
    rcases lookupA GDPR_REQUIREMENTS role with _ | info
    · simp
    · simp

/-- Witness for the amended C9 at concrete inputs: an error value of
scan_project carries the empty mapping and no result fields, and an invalid
template role yields a bare error value. -/
theorem claim_C9_amended_witness :
    (scanProject [] (fun _ => none) ⟨fun _ => false, fun _ => ""⟩ []
      "/x").files_scanned = none ∧
    (scanProject [] (fun _ => none) ⟨fun _ => false, fun _ => ""⟩ []
      "/x").ai_files = none ∧
    (scanProject [] (fun _ => none) ⟨fun _ => false, fun _ => ""⟩ []
      "/x").detected_models = some [] ∧
    (gdprGenerateTemplates [] "bogus").templates = none := by
  have h1 := (claim_C9_amended.1 [] (fun _ => none)
    ⟨fun _ => false, fun _ => ""⟩ [] "/x").1 (by decide)
  have h2 := (claim_C9_amended.2.2.2.2.2.2 [] "bogus").1 (by decide)
  exact ⟨h1.1, h1.2.1, h1.2.2, h2.2.2.1⟩

/-- Helper: pushing onto a key appends to its list (or creates it). -/
theorem lookupA_pushA_self (m : List (String × List String)) (k x : String) :
    lookupA (pushA m k x) k = some ((lookupA m k).getD [] ++ [x]) := by
  induction m with
  | nil => simp [pushA, lookupA]
  | cons hd t ih =>
      obtain ⟨k', l⟩ := hd
      by_cases hk : k' = k <;> simp [pushA, lookupA, hk, ih]

/-- Helper: pushing onto one key leaves the others unchanged. -/
theorem lookupA_pushA_other (m : List (String × List String)) (k x k' : String)
    (h : k' ≠ k) : lookupA (pushA m k x) k' = lookupA m k' := by
  induction m with
  | nil => simp [pushA, lookupA, Ne.symm h]
  | cons hd t ih =>
      obtain ⟨k'', l⟩ := hd
      by_cases hk : k'' = k <;> by_cases hk' : k'' = k' <;>
        simp_all [pushA, lookupA]

/-- Helper: the per-file category loop does not touch categories outside the
table. -/
theorem detectCats_lookup_other (pats : PatTable) (rel content cat : String) :
    ∀ dm : List (String × List String), cat ∉ pats.map Prod.fst →
      lookupA (detectCats pats rel content dm).1 cat = lookupA dm cat := by
  induction pats with
  | nil => intro dm _; simp [detectCats]
  | cons hd rest ih =>
      obtain ⟨c, qs⟩ := hd
      intro dm h
      simp only [List.map_cons, List.mem_cons] at h
      push_neg at h
      by_cases hhit : firstPatternHit qs content
      · simp [detectCats, hhit, ih (pushA dm c rel) h.2,
          lookupA_pushA_other _ _ _ _ h.1]
      · simp [detectCats, hhit, ih dm h.2]

/-- Helper: effect of the per-file category loop on one table category: its
list gains the relative path exactly when some of its patterns hits the
content. -/
theorem detectCats_lookup (pats : PatTable) (rel content : String)
    (cat : String) (ps : List Pattern) :
    ∀ dm : List (String × List String), (pats.map Prod.fst).Nodup →
      (cat, ps) ∈ pats →
      lookupA (detectCats pats rel content dm).1 cat =
        if firstPatternHit ps content then
          some ((lookupA dm cat).getD [] ++ [rel])
        else lookupA dm cat := by
  induction pats with
  | nil => intro dm _ hmem; simp at hmem
  | cons hd rest ih =>
      obtain ⟨c, qs⟩ := hd
      intro dm hk hmem
      simp only [List.map_cons, List.nodup_cons] at hk
      rcases List.mem_cons.mp hmem with heq | hrest
      · obtain ⟨rfl, rfl⟩ := Prod.mk.injEq .. ▸ heq
        have hout : cat ∉ rest.map Prod.fst := hk.1
        by_cases hhit : firstPatternHit ps content <;>
          simp [detectCats, hhit,
            detectCats_lookup_other rest rel content cat _ hout,
            lookupA_pushA_self]
      · have hne : cat ≠ c := by
          rintro rfl
          exact hk.1 (List.mem_map.mpr ⟨(cat, ps), hrest, rfl⟩)
        by_cases hhit : firstPatternHit qs content
        · simp [detectCats, hhit, ih (pushA dm c rel) hk.2 hrest,
            lookupA_pushA_other _ _ _ _ hne]
        · simp [detectCats, hhit, ih dm hk.2 hrest]

/-- Helper: a file whose content no table category hits leaves the map
unchanged and yields no per-file detections. -/
theorem detectCats_nohit (pats : PatTable) (rel content : String)
    (dm : List (String × List String))
    (h : ∀ cp ∈ pats, firstPatternHit cp.2 content = false) :
    detectCats pats rel content dm = (dm, []) := by
  induction pats with
  | nil => rfl
  | cons hd rest ih =>
      obtain ⟨c, qs⟩ := hd
      have hh := h (c, qs) (List.mem_cons_self _ _)
      simp only at hh
      simp [detectCats, hh, ih (fun cp hcp => h cp (List.mem_cons_of_mem _ hcp))]

/-- Helper: the file loop leaves categories outside the table untouched. -/
theorem detectLoop_lookup_other (pats : PatTable) (cat : String)
    (h : cat ∉ pats.map Prod.fst) :
    ∀ (files : List (String × String)) (dm : List (String × List String)),
      lookupA (detectLoop pats files dm).1 cat = lookupA dm cat
  | [], dm => rfl
  | (rel, content) :: rest, dm => by
      simp only [detectLoop]
      rw [detectLoop_lookup_other pats cat h rest]
      exact detectCats_lookup_other pats rel content cat dm h

/-- Helper: characterisation of a table category after the file loop: its
final list is its initial list extended by the relative paths of exactly the
files some of its patterns hits, in file order; a category with no initial
binding and no hit stays absent. -/
theorem detectLoop_lookup (pats : PatTable) (cat : String) (ps : List Pattern)
    (hk : (pats.map Prod.fst).Nodup) (hmem : (cat, ps) ∈ pats) :
    ∀ (files : List (String × String)) (dm : List (String × List String)),
      lookupA (detectLoop pats files dm).1 cat =
        (let ml := (files.filter
          (fun fc => firstPatternHit ps fc.2)).map Prod.fst
         match lookupA dm cat with
         | some l => some (l ++ ml)
         | none => if ml.isEmpty then none else some ml)
  | [], dm => by
      rcases hdm : lookupA dm cat with _ | l <;>
        simp [detectLoop, hdm]
  | (rel, content) :: rest, dm => by
      simp only [detectLoop]
      rw [detectLoop_lookup pats cat ps hk hmem rest]
      rw [detectCats_lookup pats rel content cat ps dm hk hmem]
      by_cases hhit : firstPatternHit ps content
      · have hfc : List.filter (fun fc => firstPatternHit ps fc.2)
            ((rel, content) :: rest) =
            (rel, content) :: List.filter (fun fc => firstPatternHit ps fc.2)
              rest := by
          simp [List.filter_cons, hhit]
        rw [hfc]
        rcases hdm : lookupA dm cat with _ | l <;> simp [hhit, hdm]
      · have hfc : List.filter (fun fc => firstPatternHit ps fc.2)
            ((rel, content) :: rest) =
            List.filter (fun fc => firstPatternHit ps fc.2) rest := by
          simp [List.filter_cons, hhit]
        rw [hfc]
        rcases hdm : lookupA dm cat with _ | l <;> simp [hhit, hdm]

/-- Helper: a run of files none of which any category hits leaves the map
and the per-file list untouched. -/
theorem detectLoop_nohit (pats : PatTable) :
    ∀ (files : List (String × String)) (dm : List (String × List String)),
      (∀ fc ∈ files, ∀ cp ∈ pats, firstPatternHit cp.2 fc.2 = false) →
      detectLoop pats files dm = (dm, [])
  | [], dm, _ => rfl
  | (rel, content) :: rest, dm, h => by
      have hc := detectCats_nohit pats rel content dm
        (fun cp hcp => h (rel, content) (List.mem_cons_self _ _) cp hcp)
      simp only [detectLoop, hc]
      rw [detectLoop_nohit pats rest dm
        (fun fc hfc cp hcp => h fc (List.mem_cons_of_mem _ hfc) cp hcp)]
      simp

/-- C7: over the detection loop of the scan (for any pattern table with
distinct category names and any walked file list with distinct relative
paths): each table category maps to exactly the relative paths of the files
some of its patterns hits, in walk order, so a file appears at most once per
category even when several same-category patterns match; a file whose
content is hit by two categories appears under both; and when nothing
matches anywhere the resulting mapping is empty, not an error. -/
theorem claim_C7 (pats : PatTable) (files : List (String × String))
    (hk : (pats.map Prod.fst).Nodup) (hf : (files.map Prod.fst).Nodup) :
    (∀ cat ps, (cat, ps) ∈ pats →
      lookupA (detectLoop pats files []).1 cat =
        (let ml := (files.filter
          (fun fc => firstPatternHit ps fc.2)).map Prod.fst
         if ml.isEmpty then none else some ml)) ∧
    (∀ cat l, lookupA (detectLoop pats files []).1 cat = some l → l.Nodup) ∧
    (∀ c1 p1 c2 p2 rel content, (c1, p1) ∈ pats → (c2, p2) ∈ pats →
      (rel, content) ∈ files → firstPatternHit p1 content = true →
      firstPatternHit p2 content = true →
      (∃ l1, lookupA (detectLoop pats files []).1 c1 = some l1 ∧ rel ∈ l1) ∧
      (∃ l2, lookupA (detectLoop pats files []).1 c2 = some l2 ∧ rel ∈ l2)) ∧
    ((∀ cp ∈ pats, ∀ fc ∈ files, firstPatternHit cp.2 fc.2 = false) →
      (detectLoop pats files []).1 = []) := by
  have hchar : ∀ cat ps, (cat, ps) ∈ pats →
      lookupA (detectLoop pats files []).1 cat =
        (let ml := (files.filter
          (fun fc => firstPatternHit ps fc.2)).map Prod.fst
         if ml.isEmpty then none else some ml) := by
    intro cat ps hmem
    rw [detectLoop_lookup pats cat ps hk hmem files []]
    simp [lookupA]
  have hml_mem : ∀ ps rel content, (rel, content) ∈ files →
      firstPatternHit ps content = true →
      rel ∈ (files.filter (fun fc => firstPatternHit ps fc.2)).map Prod.fst :=
    fun ps rel content hmem hhit =>
      List.mem_map.mpr ⟨(rel, content),
        List.mem_filter.mpr ⟨hmem, by simpa using hhit⟩, rfl⟩
  refine ⟨hchar, ?_, ?_, ?_⟩
  · intro cat l hl
    by_cases hcat : cat ∈ pats.map Prod.fst
    · obtain ⟨⟨cat', ps⟩, hmem, hfst⟩ := List.mem_map.mp hcat
      simp only [] at hfst
      subst hfst
      rw [hchar cat' ps hmem] at hl
      simp only [] at hl
      split at hl
      · exact absurd hl (by simp)
      · obtain rfl := Option.some.inj hl
        exact ((List.filter_sublist files).map Prod.fst).nodup hf
    · rw [detectLoop_lookup_other pats cat hcat files []] at hl
      simp [lookupA] at hl
  · intro c1 p1 c2 p2 rel content h1 h2 hfm hh1 hh2
    constructor
    · have hmem1 := hml_mem p1 rel content hfm hh1
      refine ⟨_, ?_, hmem1⟩
      rw [hchar c1 p1 h1]
      have hne : ¬(((files.filter (fun fc => firstPatternHit p1 fc.2)).map
          Prod.fst).isEmpty = true) := by
        intro hemp
        rw [List.isEmpty_iff.mp hemp] at hmem1
        exact absurd hmem1 (List.not_mem_nil _)
      simp [hne]
    · have hmem2 := hml_mem p2 rel content hfm hh2
      refine ⟨_, ?_, hmem2⟩
      rw [hchar c2 p2 h2]
      have hne : ¬(((files.filter (fun fc => firstPatternHit p2 fc.2)).map
          Prod.fst).isEmpty = true) := by
        intro hemp
        rw [List.isEmpty_iff.mp hemp] at hmem2
        exact absurd hmem2 (List.not_mem_nil _)
      simp [hne]
  · intro hno
    rw [detectLoop_nohit pats files []
      (fun fc hfc cp hcp => hno cp hcp fc hfc)]

/-- Witness for C7 on a concrete two-category table and two files: the file
hit by both categories appears under both, exactly once each. -/
theorem claim_C7_witness :
    lookupA (detectLoop
      [("a", [fun c => strContains c "x", fun c => strContains c "xy"]),
       ("b", [fun c => strContains c "y"])]
      [("f1", "xy"), ("f2", "z")] []).1 "a" = some ["f1"] ∧
    lookupA (detectLoop
      [("a", [fun c => strContains c "x", fun c => strContains c "xy"]),
       ("b", [fun c => strContains c "y"])]
      [("f1", "xy"), ("f2", "z")] []).1 "b" = some ["f1"] := by
  have h := claim_C7
    [("a", [fun c => strContains c "x", fun c => strContains c "xy"]),
     ("b", [fun c => strContains c "y"])]
    [("f1", "xy"), ("f2", "z")] (by decide) (by decide)
  constructor
  · exact (h.1 "a" [fun c => strContains c "x", fun c => strContains c "xy"]
      (List.Mem.head _)).trans (by decide)
  · exact (h.1 "b" [fun c => strContains c "y"]
      (List.Mem.tail _ (List.Mem.head _))).trans (by decide)

/-- Helper: reference enumeration over a whole work queue. -/
def matchedQueue (fileOk : String → Nat → Bool) :
    List (String × List FSEntry) → List String
  | [] => []
  | (cur, es) :: rest => matchedList fileOk cur es ++ matchedQueue fileOk rest

/-- Helper: the reference enumeration distributes over queue append. -/
theorem matchedQueue_append (fileOk : String → Nat → Bool) :
    ∀ (q1 q2 : List (String × List FSEntry)),
      matchedQueue fileOk (q1 ++ q2) =
        matchedQueue fileOk q1 ++ matchedQueue fileOk q2
  | [], _ => by simp [matchedQueue]
  | (cur, es) :: rest, q2 => by
      simp [matchedQueue, matchedQueue_append fileOk rest q2]

/-- Helper: the uncapped walk loop only appends to its accumulator. -/
theorem bfsAux_acc (fileOk : String → Nat → Bool) :
    ∀ (acc : List String) (q : List (String × List FSEntry)),
      bfsAux fileOk acc q = acc ++ bfsAux fileOk [] q
  | acc, [] => by simp [bfsAux]
  | acc, (cur, []) :: rest => by
      simp only [bfsAux]
      exact bfsAux_acc fileOk acc rest
  | acc, (cur, .file n sz c :: es) :: rest => by
      by_cases hskip : skipName n
      · simp [bfsAux, hskip, bfsAux_acc fileOk acc ((cur, es) :: rest)]
      · by_cases hok : fileOk n sz
        · simp [bfsAux, hskip, hok,
            bfsAux_acc fileOk (acc ++ [pathJoin cur n]) ((cur, es) :: rest),
            bfsAux_acc fileOk [pathJoin cur n] ((cur, es) :: rest)]
        · simp [bfsAux, hskip, hok, bfsAux_acc fileOk acc ((cur, es) :: rest)]
  | acc, (cur, .dir n sub :: es) :: rest => by
      by_cases hskip : skipName n
      · simp [bfsAux, hskip, bfsAux_acc fileOk acc ((cur, es) :: rest)]
      · simp [bfsAux, hskip,
          bfsAux_acc fileOk acc ((cur, es) :: (rest ++ [(pathJoin cur n, sub)]))]
  termination_by _ q => (2 * queueNodes q + q.length, 0)
  decreasing_by
    all_goals
      simp [queueNodes, nodesOf, FSEntry.nodes, List.sum_append, Prod.lex_iff]
    all_goals omega

/-- Helper: the capped walk is the truncation of the uncapped walk: the cap
stops the traversal exactly when the accumulated result reaches it, keeping
the breadth-first prefix. -/
theorem walkAux_take (fileOk : String → Nat → Bool) (k : Nat) :
    ∀ (acc : List String) (q : List (String × List FSEntry)),
      walkAux fileOk k acc q = acc ++ (bfsAux fileOk [] q).take (k - acc.length)
  | acc, [] => by simp [walkAux, bfsAux]
  | acc, (cur, []) :: rest => by
      simp only [walkAux, bfsAux]
      exact walkAux_take fileOk k acc rest
  | acc, (cur, .file n sz c :: es) :: rest => by
      by_cases hcap : acc.length ≥ k
      · rw [Nat.sub_eq_zero_of_le hcap]
        simp [walkAux, hcap]
      · by_cases hskip : skipName n
        · simp [walkAux, bfsAux, hcap, hskip,
            walkAux_take fileOk k acc ((cur, es) :: rest)]
        · by_cases hok : fileOk n sz
          · have hk : k - acc.length = (k - (acc.length + 1)) + 1 := by omega
            simp [walkAux, bfsAux, hcap, hskip, hok,
              walkAux_take fileOk k (acc ++ [pathJoin cur n]) ((cur, es) :: rest),
              bfsAux_acc fileOk [pathJoin cur n] ((cur, es) :: rest),
              hk, List.take_succ_cons]
          · simp [walkAux, bfsAux, hcap, hskip, hok,
              walkAux_take fileOk k acc ((cur, es) :: rest)]
  | acc, (cur, .dir n sub :: es) :: rest => by
      by_cases hcap : acc.length ≥ k
      · rw [Nat.sub_eq_zero_of_le hcap]
        simp [walkAux, hcap]
      · by_cases hskip : skipName n
        · simp [walkAux, bfsAux, hcap, hskip,
            walkAux_take fileOk k acc ((cur, es) :: rest)]
        · simp [walkAux, bfsAux, hcap, hskip,
            walkAux_take fileOk k acc ((cur, es) :: (rest ++ [(pathJoin cur n, sub)]))]
  termination_by _ q => (2 * queueNodes q + q.length, 0)
  decreasing_by
    all_goals
      simp [queueNodes, nodesOf, FSEntry.nodes, List.sum_append, Prod.lex_iff]
    all_goals omega

/-- Helper: the uncapped breadth-first walk is a permutation of the
depth-first reference enumeration: it returns every matching file of the
queued trees exactly once, in breadth-first rather than declaration order. -/
theorem bfsAux_perm (fileOk : String → Nat → Bool) :
    ∀ q : List (String × List FSEntry),
      (bfsAux fileOk [] q).Perm (matchedQueue fileOk q)
  | [] => by simp [bfsAux, matchedQueue]
  | (cur, []) :: rest => by
      simp only [bfsAux, matchedQueue, matchedList, List.nil_append]
      exact bfsAux_perm fileOk rest
  | (cur, .file n sz c :: es) :: rest => by
      by_cases hskip : skipName n
      · simp only [matchedQueue, matchedList, matchedIn]
        simp [bfsAux, hskip]
        simpa [matchedQueue] using bfsAux_perm fileOk ((cur, es) :: rest)
      · by_cases hok : fileOk n sz
        · simp only [matchedQueue, matchedList, matchedIn]
          simp [bfsAux, hskip, hok,
            bfsAux_acc fileOk [pathJoin cur n] ((cur, es) :: rest)]
          have hp := bfsAux_perm fileOk ((cur, es) :: rest)
          simp only [matchedQueue] at hp
          simpa using hp.cons (pathJoin cur n)
        · simp only [matchedQueue, matchedList, matchedIn]
          simp [bfsAux, hskip, hok]
          simpa [matchedQueue] using bfsAux_perm fileOk ((cur, es) :: rest)
  | (cur, .dir n sub :: es) :: rest => by
      by_cases hskip : skipName n
      · simp only [matchedQueue, matchedList, matchedIn]
        simp [bfsAux, hskip]
        simpa [matchedQueue] using bfsAux_perm fileOk ((cur, es) :: rest)
      · simp only [matchedQueue, matchedList, matchedIn]
        simp [bfsAux, hskip]
        have hp := bfsAux_perm fileOk (((cur, es) :: rest) ++ [(pathJoin cur n, sub)])
        rw [matchedQueue_append] at hp
        simp only [matchedQueue, matchedList, List.append_nil] at hp
        refine hp.trans ?_
        have hcomm : ((matchedList fileOk cur es ++ matchedQueue fileOk rest) ++
            matchedList fileOk (pathJoin cur n) sub).Perm
            (matchedList fileOk (pathJoin cur n) sub ++
              (matchedList fileOk cur es ++ matchedQueue fileOk rest)) :=
          List.perm_append_comm
        simpa [List.append_assoc] using hcomm
  termination_by q => (2 * queueNodes q + q.length, 0)
  decreasing_by
    all_goals
      simp [queueNodes, nodesOf, FSEntry.nodes, List.sum_append, Prod.lex_iff]
    all_goals omega

/-- C6: the walker result never exceeds the cap; it is exactly the first
maxFiles entries of the uncapped breadth-first traversal, so traversal
effectively stops the moment the cap is reached even with directories
unvisited, and its length is the cap or the total matching-file count,
whichever is smaller; and when the tree holds fewer matching files
(allowlisted extension, size within the byte limit, not hidden, not inside
skipped noise directories) than the cap, the walk equals the full
breadth-first traversal and is a permutation of the reference enumeration,
so every matching file is returned exactly once, in breadth-first order. -/
theorem claim_C6 (dir : String) (entries : List FSEntry) (maxFiles : Nat) :
    (walkDir dir entries maxFiles).length ≤ maxFiles ∧
    walkDir dir entries maxFiles =
      (bfsAux codeFileOk [] [(dir, entries)]).take maxFiles ∧
    (walkDir dir entries maxFiles).length =
      min maxFiles (matchedList codeFileOk dir entries).length ∧
    ((matchedList codeFileOk dir entries).length < maxFiles →
      walkDir dir entries maxFiles = bfsAux codeFileOk [] [(dir, entries)] ∧
      (walkDir dir entries maxFiles).Perm
        (matchedList codeFileOk dir entries)) := by
  have htake : walkDir dir entries maxFiles =
      (bfsAux codeFileOk [] [(dir, entries)]).take maxFiles := by
    rw [show walkDir dir entries maxFiles =
      walkAux codeFileOk maxFiles [] [(dir, entries)] from rfl]
    rw [walkAux_take codeFileOk maxFiles [] [(dir, entries)]]
    simp
  have hperm : (bfsAux codeFileOk [] [(dir, entries)]).Perm
      (matchedList codeFileOk dir entries) := by
    have h := bfsAux_perm codeFileOk [(dir, entries)]
    simpa [matchedQueue] using h
  have hlen : (bfsAux codeFileOk [] [(dir, entries)]).length =
      (matchedList codeFileOk dir entries).length := hperm.length_eq
  refine ⟨?_, htake, ?_, ?_⟩
  · rw [htake]
    exact List.length_take_le maxFiles _
  · rw [htake, List.length_take, hlen]
  · intro hlt
    have hfull : (bfsAux codeFileOk [] [(dir, entries)]).take maxFiles =
        bfsAux codeFileOk [] [(dir, entries)] := by
      apply List.take_of_length_le
      omega
    rw [htake, hfull]
    exact ⟨rfl, hperm⟩

/-- Witness for C6 on a concrete small tree with three matching files, a
hidden file, a skipped noise directory and an oversized file, under a cap
of five. -/
theorem claim_C6_witness :
    (matchedList codeFileOk "/r"
      [FSEntry.file "a.py" 10 "", FSEntry.file ".h.py" 5 "",
       FSEntry.file "big.py" 2000000 "", FSEntry.file "notes.txt" 5 "",
       FSEntry.dir "node_modules" [FSEntry.file "m.js" 1 ""],
       FSEntry.dir "sub" [FSEntry.file "b.ts" 20 "",
         FSEntry.dir "deep" [FSEntry.file "c.go" 30 ""]]]).length < 5 ∧
    walkDir "/r"
      [FSEntry.file "a.py" 10 "", FSEntry.file ".h.py" 5 "",
       FSEntry.file "big.py" 2000000 "", FSEntry.file "notes.txt" 5 "",
       FSEntry.dir "node_modules" [FSEntry.file "m.js" 1 ""],
       FSEntry.dir "sub" [FSEntry.file "b.ts" 20 "",
         FSEntry.dir "deep" [FSEntry.file "c.go" 30 ""]]] 5 =
      ["/r/a.py", "/r/sub/b.ts", "/r/sub/deep/c.go"] ∧
    (walkDir "/r"
      [FSEntry.file "a.py" 10 "", FSEntry.file ".h.py" 5 "",
       FSEntry.file "big.py" 2000000 "", FSEntry.file "notes.txt" 5 "",
       FSEntry.dir "node_modules" [FSEntry.file "m.js" 1 ""],
       FSEntry.dir "sub" [FSEntry.file "b.ts" 20 "",
         FSEntry.dir "deep" [FSEntry.file "c.go" 30 ""]]] 5).Perm
      (matchedList codeFileOk "/r"
        [FSEntry.file "a.py" 10 "", FSEntry.file ".h.py" 5 "",
         FSEntry.file "big.py" 2000000 "", FSEntry.file "notes.txt" 5 "",
         FSEntry.dir "node_modules" [FSEntry.file "m.js" 1 ""],
         FSEntry.dir "sub" [FSEntry.file "b.ts" 20 "",
           FSEntry.dir "deep" [FSEntry.file "c.go" 30 ""]]]) := by
  have h := claim_C6 "/r"
    [FSEntry.file "a.py" 10 "", FSEntry.file ".h.py" 5 "",
     FSEntry.file "big.py" 2000000 "", FSEntry.file "notes.txt" 5 "",
     FSEntry.dir "node_modules" [FSEntry.file "m.js" 1 ""],
     FSEntry.dir "sub" [FSEntry.file "b.ts" 20 "",
       FSEntry.dir "deep" [FSEntry.file "c.go" 30 ""]]] 5
  refine ⟨by decide, ?_, (h.2.2.2 (by decide)).2⟩
  refine ((h.2.2.2 (by decide)).1).trans ?_
  simp +decide [bfsAux, skipName, codeFileOk, strStartsWith, listStartsWith,
    extname, CODE_EXTENSIONS, MAX_FILE_SIZE, pathJoin]
